import Mathlib

/-
Verification development for the `class-attendance-pro` server (`src/server.ts`).

Modelling choices (shallow embedding):
* The SQLite database is a record of lists, one per table, kept in insertion
  order (`rowid` order).  `AUTOINCREMENT` ids are modelled with explicit
  `next…Id` counters that never reuse values.
* Timestamps (ISO strings in the code, produced from `Date.now()` and compared
  either via JavaScript millisecond arithmetic or SQLite `datetime`) are
  modelled uniformly as natural numbers counting milliseconds.  The JavaScript
  checks `diffMins > 20` and `diffHours > 24` on real-valued divisions of a
  millisecond difference are exactly `1200000 < now - start` and
  `86400000 < now - start`; the SQL filter
  `datetime(start_time) > datetime('now','-24 hours')` is `now < start + 86400000`.
* Randomly generated OTP codes are inputs of the operations (the handlers draw
  them from `Math.random`); all string comparisons are exact and
  case-sensitive, as in the code.
* Each HTTP handler becomes a function from the database (plus request fields)
  to a result together with the new database.
-/

namespace CAP

/-- Attendance status (`status` column, values `pending` / `present` / `absent`). -/
inductive Status where
  | pending
  | present
  | absent
  deriving DecidableEq, Repr

/-- Row of the `students` table. -/
structure StudentRow where
  id : Nat
  name : String
  admission_number : String
  deriving DecidableEq, Repr

/-- Row of the `units` table. -/
structure UnitRow where
  id : Nat
  name : String
  lecturer : String
  deriving DecidableEq, Repr

/-- Row of the `lessons` table.  `date`, `start_time`, `end_time` hold epoch
milliseconds (the code stores ISO strings produced from these instants and
converts back with `new Date(...).getTime()`). -/
structure LessonRow where
  id : Nat
  unit_id : Nat
  date : Nat
  venue : String
  duration : Nat
  start_time : Nat
  end_time : Nat
  scheduled_start : String
  scheduled_end : String
  lecturer_otp : String
  lecturer_present : Bool
  otp_enabled : Bool
  deriving DecidableEq, Repr

/-- Row of the `attendance` table. -/
structure AttendanceRow where
  id : Nat
  lesson_id : Nat
  student_id : Nat
  otp : String
  status : Status
  marked_at : Option Nat
  deriving DecidableEq, Repr

/-- The whole database plus the current wall clock (`now`, epoch ms). -/
structure Db where
  students : List StudentRow
  units : List UnitRow
  lessons : List LessonRow
  attendance : List AttendanceRow
  nextStudentId : Nat
  nextUnitId : Nat
  nextLessonId : Nat
  nextAttendanceId : Nat
  now : Nat
  deriving DecidableEq, Repr

/-- The freshly created database (`CREATE TABLE IF NOT EXISTS …`, all tables
empty, `AUTOINCREMENT` counters at 1). -/
def Db.init : Db :=
  { students := [], units := [], lessons := [], attendance := [],
    nextStudentId := 1, nextUnitId := 1, nextLessonId := 1, nextAttendanceId := 1,
    now := 0 }

/-- `ORDER BY id DESC LIMIT 1` over a list: the element with the largest key. -/
def latestBy {α : Type} (f : α → Nat) : List α → Option α
  | [] => none
  | x :: xs =>
    match latestBy f xs with
    | none => some x
    | some y => if f y ≤ f x then some x else some y

/-- The query
`SELECT … FROM lessons WHERE datetime(start_time) > datetime('now','-24 hours') ORDER BY id DESC LIMIT 1`
shared verbatim by `POST /api/lessons/restart` and `POST /api/students`. -/
def activeLessonQuery (s : Db) : Option LessonRow :=
  latestBy (fun l => l.id) (s.lessons.filter (fun l => s.now < l.start_time + 86400000))

/-- Whether a lesson row survives the `JOIN units u ON l.unit_id = u.id` of
`GET /api/lessons/active`. -/
def hasUnit (s : Db) (l : LessonRow) : Bool :=
  s.units.any (fun u => u.id == l.unit_id)

/-- The per-student `INSERT INTO attendance (lesson_id, student_id, otp)` loop of
`POST /api/lessons/start` and `POST /api/lessons/restart`: one fresh row per
registered student, `status` defaulting to `'pending'`, ids drawn from the
autoincrement counter.  `g` is the per-student OTP generator. -/
def mkRows (lid : Nat) (g : Nat → String) : Nat → List StudentRow → List AttendanceRow
  | _, [] => []
  | n, st :: rest =>
    { id := n, lesson_id := lid, student_id := st.id, otp := g st.id,
      status := Status.pending, marked_at := none } :: mkRows lid g (n + 1) rest

/-- `POST /api/students`: insert the student (duplicate admission numbers make
the `UNIQUE` constraint throw, mapped to `none`), then, when the 24-hour query
finds an active lesson, insert one attendance row whose status is `'absent'`
when more than 20 minutes have elapsed since the lesson started and `'pending'`
otherwise.  `otp` is the generated six-digit code. -/
def registerStudent (s : Db) (name adm otp : String) : Option Nat × Db :=
  if s.students.any (fun x => x.admission_number == adm) then (none, s)
  else
    let sid := s.nextStudentId
    let s1 : Db :=
      { s with students := s.students ++ [{ id := sid, name := name, admission_number := adm }],
               nextStudentId := sid + 1 }
    match activeLessonQuery s1 with
    | none => (some sid, s1)
    | some al =>
      let st : Status := if 1200000 < s1.now - al.start_time then Status.absent else Status.pending
      (some sid,
        { s1 with
          attendance := s1.attendance ++
            [{ id := s1.nextAttendanceId, lesson_id := al.id, student_id := sid,
               otp := otp, status := st, marked_at := none }],
          nextAttendanceId := s1.nextAttendanceId + 1 })

/-- `POST /api/units`. -/
def addUnit (s : Db) (name lecturer : String) : Nat × Db :=
  (s.nextUnitId,
    { s with units := s.units ++ [{ id := s.nextUnitId, name := name, lecturer := lecturer }],
             nextUnitId := s.nextUnitId + 1 })

/-- Request body of `POST /api/lessons/start`.  `unit_id = 0` models the falsy
`!unit_id` check; `duration = 0` models the `parseInt(duration) || 60` fallback;
`lecturer_otp` and `student_otp` are the codes the handler generates. -/
structure StartReq where
  unit_id : Nat
  venue : String
  duration : Nat
  scheduled_start : String
  scheduled_end : String
  lecturer_otp : String
  student_otp : Nat → String

/-- `POST /api/lessons/start`: reject a falsy `unit_id`, otherwise insert one
lesson row (with the generated lecturer OTP, `start_time = now`) and one
pending attendance row per registered student. -/
def startLesson (s : Db) (r : StartReq) : Option Nat × Db :=
  if r.unit_id = 0 then (none, s)
  else
    let d := if r.duration = 0 then 60 else r.duration
    let L : LessonRow :=
      { id := s.nextLessonId, unit_id := r.unit_id, date := s.now, venue := r.venue,
        duration := d, start_time := s.now, end_time := s.now + d * 60000,
        scheduled_start := r.scheduled_start, scheduled_end := r.scheduled_end,
        lecturer_otp := r.lecturer_otp, lecturer_present := false, otp_enabled := false }
    (some s.nextLessonId,
      { s with lessons := s.lessons ++ [L],
               nextLessonId := s.nextLessonId + 1,
               attendance := s.attendance ++
                 mkRows s.nextLessonId r.student_otp s.nextAttendanceId s.students,
               nextAttendanceId := s.nextAttendanceId + s.students.length })

/-- `POST /api/lessons/restart`: when the 24-hour query finds an active lesson,
update that lesson row in place (`start_time = now`, new `end_time`,
`otp_enabled = 0`), delete its attendance rows and insert fresh pending rows
with newly generated codes; otherwise 404 with no change. -/
def restartLesson (s : Db) (g : Nat → String) : Bool × Db :=
  match activeLessonQuery s with
  | none => (false, s)
  | some al =>
    (true,
      { s with
        lessons := s.lessons.map (fun l =>
          if l.id = al.id then
            { l with start_time := s.now, end_time := s.now + al.duration * 60000,
                     otp_enabled := false }
          else l),
        attendance := (s.attendance.filter (fun a => !(a.lesson_id == al.id))) ++
          mkRows al.id g s.nextAttendanceId s.students,
        nextAttendanceId := s.nextAttendanceId + s.students.length })

/-- `POST /api/lessons/:id/enable-otp`: unconditional
`UPDATE lessons SET otp_enabled = 1 WHERE id = ?`. -/
def enableOtp (s : Db) (lid : Nat) : Db :=
  { s with lessons := s.lessons.map (fun l =>
      if l.id = lid then { l with otp_enabled := true } else l) }

/-- `POST /api/lecturer/mark`: single shared lecturer OTP check, first correct
submission sets `lecturer_present = 1`. -/
def lecturerMark (s : Db) (lid : Nat) (otp : String) : Bool × Db :=
  match s.lessons.find? (fun l => l.id == lid) with
  | none => (false, s)
  | some l =>
    if l.lecturer_otp == otp then
      (true,
        { s with lessons := s.lessons.map (fun x =>
            if x.id = lid then { x with lecturer_present := true } else x) })
    else (false, s)

/-- `GET /api/lessons/active`: select the highest-id lesson that joins with a
unit; report `null` when none exists or when it started more than 24 hours ago;
otherwise, when more than 20 minutes have elapsed, auto-expire its pending
attendance rows (`UPDATE attendance SET status='absent' WHERE lesson_id = ? AND
status='pending'`) before answering. -/
def getActiveLesson (s : Db) : Option LessonRow × Db :=
  match latestBy (fun l => l.id) (s.lessons.filter (fun l => hasUnit s l)) with
  | none => (none, s)
  | some lesson =>
    if 86400000 < s.now - lesson.start_time then (none, s)
    else if 1200000 < s.now - lesson.start_time then
      (some lesson,
        { s with attendance := s.attendance.map (fun a =>
            if a.lesson_id = lesson.id ∧ a.status = Status.pending
            then { a with status := Status.absent } else a) })
    else (some lesson, s)

/-- Outcome of `POST /api/attendance/mark` (one constructor per response). -/
inductive MarkResult where
  | success
  | lessonNotFound
  | otpNotEnabled
  | expired
  | invalidOtp
  | alreadyPresent
  deriving DecidableEq, Repr

/-- `POST /api/attendance/mark`: 404 when the lesson does not exist; 400 when
OTP input is not enabled; when more than 20 minutes have elapsed, flip this
one student's still-pending row to `'absent'` and answer 400; otherwise look
up the row matching `(lesson_id, student_id, otp)` exactly, reject a missing
match or an already-present row, and finally set `status='present'` and
`marked_at`. -/
def markAttendance (s : Db) (lid sid : Nat) (otp : String) : MarkResult × Db :=
  match s.lessons.find? (fun l => l.id == lid) with
  | none => (MarkResult.lessonNotFound, s)
  | some l =>
    if l.otp_enabled = false then (MarkResult.otpNotEnabled, s)
    else if 1200000 < s.now - l.start_time then
      (MarkResult.expired,
        { s with attendance := s.attendance.map (fun a =>
            if a.lesson_id = lid ∧ a.student_id = sid ∧ a.status = Status.pending
            then { a with status := Status.absent } else a) })
    else
      match s.attendance.find? (fun a =>
          a.lesson_id == lid && a.student_id == sid && a.otp == otp) with
      | none => (MarkResult.invalidOtp, s)
      | some r0 =>
        if r0.status = Status.present then (MarkResult.alreadyPresent, s)
        else
          (MarkResult.success,
            { s with attendance := s.attendance.map (fun a =>
                if a.id = r0.id
                then { a with status := Status.present, marked_at := some s.now }
                else a) })

/-- `DELETE /api/students/:id`: transactional delete of the student and their
attendance rows. -/
def deleteStudent (s : Db) (i : Nat) : Db :=
  { s with attendance := s.attendance.filter (fun a => !(a.student_id == i)),
           students := s.students.filter (fun x => !(x.id == i)) }

/-- Execution of `db.prepare('SELECT id FROM lessons WHERE unit_id = ?').all(…)`:
better-sqlite3 throws `RangeError: Too few parameter values were provided` when
a statement with a placeholder is run without binding it. -/
def lessonsForUnitAll (s : Db) (params : List Nat) : Except String (List Nat) :=
  match params with
  | [] => Except.error "Too few parameter values were provided"
  | uid :: _ => Except.ok ((s.lessons.filter (fun l => l.unit_id == uid)).map (fun l => l.id))

/-- `DELETE /api/units/:id`.  The handler's transaction begins with
`db.prepare('SELECT id FROM lessons WHERE unit_id = ?').all()` — note `.all()`
is called with NO bound parameter, so the statement throws, the transaction
aborts, and the handler answers 500 having changed nothing.  The intended
cascade (kept here as the dead `ok` branch) never runs. -/
def deleteUnit (s : Db) (i : Nat) : Except String Db :=
  match lessonsForUnitAll s [] with
  | Except.error e => Except.error e
  | Except.ok lids =>
    Except.ok
      { s with attendance := s.attendance.filter (fun a => !(lids.contains a.lesson_id)),
               lessons := s.lessons.filter (fun l => !(l.unit_id == i)),
               units := s.units.filter (fun u => !(u.id == i)) }

/-- One client-visible operation (HTTP request), plus clock advance. -/
inductive Op where
  | tick (t : Nat)
  | register (name adm otp : String)
  | addUnit (name lecturer : String)
  | startLesson (r : StartReq)
  | restart (g : Nat → String)
  | enableOtp (lid : Nat)
  | lecturerMark (lid : Nat) (otp : String)
  | pollActive
  | mark (lid sid : Nat) (otp : String)
  | deleteStudent (i : Nat)
  | deleteUnit (i : Nat)

/-- State transition of one operation (the wall clock only moves forward). -/
def applyOp (s : Db) : Op → Db
  | Op.tick t => { s with now := max s.now t }
  | Op.register name adm otp => (registerStudent s name adm otp).2
  | Op.addUnit name lecturer => (addUnit s name lecturer).2
  | Op.startLesson r => (startLesson s r).2
  | Op.restart g => (restartLesson s g).2
  | Op.enableOtp lid => enableOtp s lid
  | Op.lecturerMark lid otp => (lecturerMark s lid otp).2
  | Op.pollActive => (getActiveLesson s).2
  | Op.mark lid sid otp => (markAttendance s lid sid otp).2
  | Op.deleteStudent i => deleteStudent s i
  | Op.deleteUnit i =>
    match deleteUnit s i with
    | Except.ok s2 => s2
    | Except.error _ => s

/-- Database states reachable from the fresh database through the handlers. -/
inductive Reachable : Db → Prop
  | init : Reachable Db.init
  | step (s : Db) (op : Op) : Reachable s → Reachable (applyOp s op)

/-- Inductive invariant of the reachable states: well-formed autoincrement ids,
lesson start times never in the future and monotone in the id order, and every
absent attendance row belongs to a lesson whose 20-minute window has elapsed. -/
structure Inv (s : Db) : Prop where
  startLe : ∀ l ∈ s.lessons, l.start_time ≤ s.now
  lessonIdLt : ∀ l ∈ s.lessons, l.id < s.nextLessonId
  lessonNodup : s.lessons.Pairwise (fun x y => x.id ≠ y.id)
  startMono : ∀ x ∈ s.lessons, ∀ y ∈ s.lessons, x.id < y.id → x.start_time ≤ y.start_time
  studentIdLt : ∀ st ∈ s.students, st.id < s.nextStudentId
  studentNodup : s.students.Pairwise (fun x y => x.id ≠ y.id)
  attIdLt : ∀ a ∈ s.attendance, a.id < s.nextAttendanceId
  attNodup : s.attendance.Pairwise (fun x y => x.id ≠ y.id)
  attLessonIdLt : ∀ a ∈ s.attendance, a.lesson_id < s.nextLessonId
  attStudentIdLt : ∀ a ∈ s.attendance, a.student_id < s.nextStudentId
  pairNodup : s.attendance.Pairwise
    (fun x y => x.lesson_id ≠ y.lesson_id ∨ x.student_id ≠ y.student_id)
  absentExpired : ∀ a ∈ s.attendance, a.status = Status.absent →
    ∀ l ∈ s.lessons, l.id = a.lesson_id → 1200000 < s.now - l.start_time

/-- Concrete request used by the example runs: unit 1, room 1, 60 minutes,
lecturer code 999999, student codes 111111 (student 1) / 222222 (others). -/
def reqW : StartReq :=
  { unit_id := 1, venue := "Room 1", duration := 60, scheduled_start := "",
    scheduled_end := "", lecturer_otp := "999999",
    student_otp := fun sid => if sid = 1 then "111111" else "222222" }

/-- Example run: register Alice. -/
def w1 : Db := applyOp Db.init (Op.register "Alice" "A001" "000000")

/-- Example run: also register Bob. -/
def w2 : Db := applyOp w1 (Op.register "Bob" "A002" "000000")

/-- Example run: create unit 1. -/
def w3 : Db := applyOp w2 (Op.addUnit "CS101" "Dr. Smith")

/-- Example run: start a session for unit 1 (lesson 1, two pending rows). -/
def w4 : Db := applyOp w3 (Op.startLesson reqW)

/-- Example run: enable OTP input for lesson 1. -/
def w5 : Db := applyOp w4 (Op.enableOtp 1)

/-- Example run: student 1 marks attendance successfully at time 0. -/
def w6 : Db := applyOp w5 (Op.mark 1 1 "111111")

/-- Example run: instead of marking, let 20 minutes and 1 ms elapse after `w5`. -/
def x6 : Db := applyOp w5 (Op.tick 1200001)

/-- Example run: restart the active session of `w5` with fresh code 333333. -/
def y6 : Db := applyOp w5 (Op.restart (fun _ => "333333"))

/-- Lesson 1 as stored in `w5`/`w6`/`x6` (OTP input enabled). -/
def lessonW : LessonRow :=
  { id := 1, unit_id := 1, date := 0, venue := "Room 1", duration := 60,
    start_time := 0, end_time := 3600000, scheduled_start := "", scheduled_end := "",
    lecturer_otp := "999999", lecturer_present := false, otp_enabled := true }

/-- Student 1's pending attendance row in `w5`. -/
def rowW1 : AttendanceRow :=
  { id := 1, lesson_id := 1, student_id := 1, otp := "111111",
    status := Status.pending, marked_at := none }

/-- Student 2's pending attendance row in `w5`. -/
def rowW2 : AttendanceRow :=
  { id := 2, lesson_id := 1, student_id := 2, otp := "222222",
    status := Status.pending, marked_at := none }

/-- Student 1's row in `w6`, marked present at time 0. -/
def rowW1m : AttendanceRow :=
  { id := 1, lesson_id := 1, student_id := 1, otp := "111111",
    status := Status.present, marked_at := some 0 }

/-- Lesson 1 as stored in `y6` (restarted: OTP input disabled again). -/
def lessonRW : LessonRow :=
  { id := 1, unit_id := 1, date := 0, venue := "Room 1", duration := 60,
    start_time := 0, end_time := 3600000, scheduled_start := "", scheduled_end := "",
    lecturer_otp := "999999", lecturer_present := false, otp_enabled := false }

/-- Request with a dangling `unit_id` (unit 2 does not exist in `z1`). -/
def reqZ : StartReq :=
  { unit_id := 2, venue := "Room 2", duration := 60, scheduled_start := "",
    scheduled_end := "", lecturer_otp := "888888", student_otp := fun _ => "777777" }

/-- Example run: create unit 1 only. -/
def z1 : Db := applyOp Db.init (Op.addUnit "CS101" "Dr. Smith")

/-- Example run: start a lesson whose `unit_id` (2) matches no unit. -/
def z2 : Db := applyOp z1 (Op.startLesson reqZ)

/-- The (most recently created) lesson stored in `z2`. -/
def lzW : LessonRow :=
  { id := 1, unit_id := 2, date := 0, venue := "Room 2", duration := 60,
    start_time := 0, end_time := 3600000, scheduled_start := "", scheduled_end := "",
    lecturer_otp := "888888", lecturer_present := false, otp_enabled := false }

/-- Request naming `unit_id = 7` in an empty database. -/
def reqQ : StartReq :=
  { unit_id := 7, venue := "Lab", duration := 30, scheduled_start := "",
    scheduled_end := "", lecturer_otp := "555555", student_otp := fun _ => "444444" }

/-- Example run: a lesson started with no units registered at all. -/
def q1 : Db := applyOp Db.init (Op.startLesson reqQ)

/-- The lesson stored in `q1`. -/
def lqW : LessonRow :=
  { id := 1, unit_id := 7, date := 0, venue := "Lab", duration := 30,
    start_time := 0, end_time := 1800000, scheduled_start := "", scheduled_end := "",
    lecturer_otp := "555555", lecturer_present := false, otp_enabled := false }

/-- Two list elements with the same key are equal when keys are pairwise distinct. -/
theorem key_eq_of_pairwise {α β : Type} (f : α → β) {l : List α}
    (h : l.Pairwise (fun x y => f x ≠ f y)) {x y : α} (hx : x ∈ l) (hy : y ∈ l)
    (hf : f x = f y) : x = y := by
  induction l with
  | nil => cases hx
  | cons a t ih =>
    rcases List.pairwise_cons.mp h with ⟨ha, ht⟩
    rcases List.mem_cons.mp hx with hx1 | hx1 <;> rcases List.mem_cons.mp hy with hy1 | hy1
    · rw [hx1, hy1]
    · subst hx1; exact absurd hf (ha y hy1)
    · subst hy1; exact absurd hf.symm (ha x hx1)
    · exact ih ht hx1 hy1

/-- A `find?` whose satisfiers are all equal to a member returns that member. -/
theorem find?_eq_some_unique {α : Type} (p : α → Bool) {l : List α} {a : α}
    (ha : a ∈ l) (hpa : p a = true) (hu : ∀ b ∈ l, p b = true → b = a) :
    l.find? p = some a := by
  induction l with
  | nil => cases ha
  | cons x t ih =>
    by_cases hx : p x = true
    · rw [List.find?_cons_of_pos _ hx, hu x (List.mem_cons_self x t) hx]
    · have hpx : p x = false := by
        cases h2 : p x with
        | false => rfl
        | true => exact absurd h2 hx
      have ha2 : a ∈ t := by
        rcases List.mem_cons.mp ha with h1 | h1
        · subst h1; exact absurd hpa hx
        · exact h1
      rw [List.find?_cons_of_neg _ (by simp [hpx])]
      exact ih ha2 (fun b hb hpb => hu b (List.mem_cons_of_mem _ hb) hpb)

/-- The `ORDER BY … DESC LIMIT 1` helper answers `none` exactly on the empty list. -/
theorem latestBy_eq_none {α : Type} (f : α → Nat) (l : List α) :
    latestBy f l = none ↔ l = [] := by
  cases l with
  | nil => simp [latestBy]
  | cons x xs =>
    rcases h : latestBy f xs with _ | y
    · simp [latestBy, h]
    · simp only [latestBy, h]
      constructor
      · intro hcon
        by_cases hle : f y ≤ f x
        · rw [if_pos hle] at hcon; cases hcon
        · rw [if_neg hle] at hcon; cases hcon
      · intro hcon; cases hcon

/-- Characterisation of the `ORDER BY … DESC LIMIT 1` helper on lists with
pairwise-distinct keys: it answers exactly the member with the maximal key. -/
theorem latestBy_eq_some_iff {α : Type} (f : α → Nat) :
    ∀ {l : List α}, l.Pairwise (fun x y => f x ≠ f y) → ∀ a : α,
      (latestBy f l = some a ↔ a ∈ l ∧ ∀ b ∈ l, f b ≤ f a) := by
  intro l
  induction l with
  | nil => intro _ a; simp [latestBy]
  | cons x xs ih =>
    intro hnd a
    rcases List.pairwise_cons.mp hnd with ⟨hx, hxs⟩
    rcases h : latestBy f xs with _ | y
    · have hnil : xs = [] := (latestBy_eq_none f xs).mp h
      subst hnil
      simp only [latestBy, h]
      constructor
      · intro hxa
        have hxa2 : x = a := by injection hxa
        subst hxa2
        exact ⟨List.mem_singleton.mpr rfl, by intro b hb; rw [List.mem_singleton.mp hb]⟩
      · intro hc
        rw [List.mem_singleton.mp hc.1]
    · have hy := ((ih hxs y).mp h)
      simp only [latestBy, h]
      constructor
      · intro heq
        by_cases hle : f y ≤ f x
        · rw [if_pos hle] at heq
          have hxa : x = a := by injection heq
          subst hxa
          refine ⟨List.mem_cons_self _ _, ?_⟩
          intro b hb
          rcases List.mem_cons.mp hb with h1 | h1
          · rw [h1]
          · exact le_trans (hy.2 b h1) hle
        · rw [if_neg hle] at heq
          have hya : y = a := by injection heq
          subst hya
          refine ⟨List.mem_cons_of_mem _ hy.1, ?_⟩
          intro b hb
          rcases List.mem_cons.mp hb with h1 | h1
          · subst h1; omega
          · exact hy.2 b h1
      · intro hc
        rcases hc with ⟨hmem, hmax⟩
        rcases List.mem_cons.mp hmem with h1 | h1
        · subst h1
          rw [if_pos (hmax y (List.mem_cons_of_mem _ hy.1))]
        · have hfy : f a ≤ f y := hy.2 a h1
          have hfy2 : f y ≤ f a := hmax y (List.mem_cons_of_mem _ hy.1)
          have hay : a = y := key_eq_of_pairwise f hxs h1 hy.1 (le_antisymm hfy hfy2)
          subst hay
          have hxle : f x ≤ f a := hmax x (List.mem_cons_self _ _)
          by_cases hle : f a ≤ f x
          · have hfeq : f x = f a := le_antisymm hxle hle
            have hcon : x = a := key_eq_of_pairwise f hnd (List.mem_cons_self _ _)
              (List.mem_cons_of_mem _ h1) hfeq
            exact absurd (hcon ▸ hfeq) (hx a h1)
          · rw [if_neg hle]

/-- Each fresh attendance row of the insertion loop: lesson id, pending status,
generated OTP, id range, and originating student. -/
theorem mem_mkRows {lid : Nat} {g : Nat → String} :
    ∀ {sts : List StudentRow} {n : Nat} {a : AttendanceRow}, a ∈ mkRows lid g n sts →
      a.lesson_id = lid ∧ a.status = Status.pending ∧ a.otp = g a.student_id ∧
      a.marked_at = none ∧ n ≤ a.id ∧ a.id < n + sts.length ∧
      ∃ st ∈ sts, st.id = a.student_id := by
  intro sts
  induction sts with
  | nil => intro n a ha; cases ha
  | cons st rest ih =>
    intro n a ha
    rcases List.mem_cons.mp ha with h1 | h1
    · subst h1
      refine ⟨rfl, rfl, rfl, rfl, le_refl _, by simp, st, List.mem_cons_self _ _, rfl⟩
    · obtain ⟨e1, e2, e3, e4, e5, e6, st2, hst2, e7⟩ := ih h1
      exact ⟨e1, e2, e3, e4, by omega, by simp; omega, st2, List.mem_cons_of_mem _ hst2, e7⟩

/-- The insertion loop creates as many rows as there are registered students. -/
theorem mkRows_length (lid : Nat) (g : Nat → String) :
    ∀ (sts : List StudentRow) (n : Nat), (mkRows lid g n sts).length = sts.length := by
  intro sts
  induction sts with
  | nil => intro n; rfl
  | cons st rest ih => intro n; simp [mkRows, ih]

/-- Every registered student receives a fresh pending row. -/
theorem mkRows_exists {lid : Nat} {g : Nat → String} :
    ∀ {sts : List StudentRow} (n : Nat) {st : StudentRow}, st ∈ sts →
      ∃ a ∈ mkRows lid g n sts, a.student_id = st.id ∧ a.otp = g st.id ∧
        a.status = Status.pending ∧ a.lesson_id = lid := by
  intro sts
  induction sts with
  | nil => intro n st h; cases h
  | cons x rest ih =>
    intro n st h
    rcases List.mem_cons.mp h with h1 | h1
    · subst h1
      exact ⟨_, List.mem_cons_self _ _, rfl, rfl, rfl, rfl⟩
    · obtain ⟨a, ha, e⟩ := ih (n + 1) h1
      exact ⟨a, List.mem_cons_of_mem _ ha, e⟩

/-- Fresh rows carry pairwise-distinct autoincrement ids. -/
theorem mkRows_pairwise_id (lid : Nat) (g : Nat → String) :
    ∀ (sts : List StudentRow) (n : Nat),
      (mkRows lid g n sts).Pairwise (fun x y => x.id ≠ y.id) := by
  intro sts
  induction sts with
  | nil => intro n; exact List.Pairwise.nil
  | cons st rest ih =>
    intro n
    refine List.pairwise_cons.mpr ⟨?_, ih (n + 1)⟩
    intro b hb
    have := (mem_mkRows hb).2.2.2.2.1
    simp only []
    omega

/-- Fresh rows of one insertion loop name pairwise-distinct students (given
distinct student ids). -/
theorem mkRows_pairwise_pair (lid : Nat) (g : Nat → String) :
    ∀ {sts : List StudentRow}, sts.Pairwise (fun x y => x.id ≠ y.id) → ∀ (n : Nat),
      (mkRows lid g n sts).Pairwise
        (fun x y => x.lesson_id ≠ y.lesson_id ∨ x.student_id ≠ y.student_id) := by
  intro sts
  induction sts with
  | nil => intro _ n; exact List.Pairwise.nil
  | cons st rest ih =>
    intro h n
    rcases List.pairwise_cons.mp h with ⟨hst, hrest⟩
    refine List.pairwise_cons.mpr ⟨?_, ih hrest (n + 1)⟩
    intro b hb
    right
    obtain ⟨st2, hst2, hid⟩ := (mem_mkRows hb).2.2.2.2.2.2
    simp only []
    rw [← hid]
    exact hst st2 hst2

/-- The `ORDER BY … DESC LIMIT 1` helper answers a member of the list. -/
theorem latestBy_mem {α : Type} (f : α → Nat) :
    ∀ {l : List α} {a : α}, latestBy f l = some a → a ∈ l := by
  intro l
  induction l with
  | nil => intro a h; cases h
  | cons x xs ih =>
    intro a h
    rcases h2 : latestBy f xs with _ | y
    · rw [latestBy, h2] at h
      have : x = a := by injection h
      exact this ▸ List.mem_cons_self _ _
    · simp only [latestBy, h2] at h
      by_cases hle : f y ≤ f x
      · rw [if_pos hle] at h
        have : x = a := by injection h
        exact this ▸ List.mem_cons_self _ _
      · rw [if_neg hle] at h
        have : y = a := by injection h
        exact List.mem_cons_of_mem _ (this ▸ ih h2)

/-- The 24-hour active-lesson query answers a stored lesson that started less
than 24 hours ago. -/
theorem activeLessonQuery_mem {s : Db} {al : LessonRow}
    (h : activeLessonQuery s = some al) :
    al ∈ s.lessons ∧ s.now < al.start_time + 86400000 := by
  rw [activeLessonQuery] at h
  have hm := latestBy_mem (fun l : LessonRow => l.id) h
  have hf := List.mem_filter.mp hm
  refine ⟨hf.1, ?_⟩
  have := hf.2
  simpa using this

/-- Appending a single element to a pairwise list. -/
theorem pairwise_append_singleton {α : Type} {R : α → α → Prop} {l : List α} {a : α}
    (hl : l.Pairwise R) (h : ∀ b ∈ l, R b a) : (l ++ [a]).Pairwise R := by
  refine List.pairwise_append.mpr ⟨hl, List.pairwise_singleton _ _, ?_⟩
  intro x hx y hy
  rw [List.mem_singleton.mp hy]
  exact h x hx

/-- The fresh database satisfies the invariant. -/
theorem inv_init : Inv Db.init := by
  constructor <;> simp [Db.init]

/-- Advancing the clock preserves the invariant. -/
theorem inv_tick (s : Db) (h : Inv s) (t : Nat) : Inv (applyOp s (Op.tick t)) := by
  obtain ⟨h1, h2, h3, h4, h5, h6, h7, h8, h9, h10, h11, h12⟩ := h
  refine ⟨?_, h2, h3, h4, h5, h6, h7, h8, h9, h10, h11, ?_⟩
  · intro l hl
    exact le_trans (h1 l hl) (le_max_left _ _)
  · intro a ha hst l hl hid
    have hh := h12 a ha hst l hl hid
    have hmax : s.now ≤ max s.now t := le_max_left _ _
    simp only [applyOp]
    omega

/-- `POST /api/units` preserves the invariant. -/
theorem inv_addUnit (s : Db) (h : Inv s) (name lecturer : String) :
    Inv (applyOp s (Op.addUnit name lecturer)) := by
  obtain ⟨h1, h2, h3, h4, h5, h6, h7, h8, h9, h10, h11, h12⟩ := h
  exact ⟨h1, h2, h3, h4, h5, h6, h7, h8, h9, h10, h11, h12⟩

/-- `POST /api/students` preserves the invariant. -/
theorem inv_register (s : Db) (h : Inv s) (name adm otp : String) :
    Inv (applyOp s (Op.register name adm otp)) := by
  obtain ⟨h1, h2, h3, h4, h5, h6, h7, h8, h9, h10, h11, h12⟩ := h
  simp only [applyOp, registerStudent]
  split
  · exact ⟨h1, h2, h3, h4, h5, h6, h7, h8, h9, h10, h11, h12⟩
  · split
    · -- no active lesson: only the student list grows
      dsimp only
      refine ⟨h1, h2, h3, h4, ?_, ?_, h7, h8, h9, ?_, h11, h12⟩
      · intro st hst
        dsimp only
        rcases List.mem_append.mp hst with hst | hst
        · have := h5 st hst; omega
        · rw [List.mem_singleton.mp hst]; simp
      · refine pairwise_append_singleton h6 ?_
        intro b hb
        have := h5 b hb
        dsimp only
        omega
      · intro a ha
        dsimp only
        have := h10 a ha; omega
    · -- active lesson: one attendance row is also inserted
      rename_i al heq
      have heq2 : activeLessonQuery s = some al := heq
      obtain ⟨halmem, _⟩ := activeLessonQuery_mem heq2
      dsimp only
      refine ⟨h1, h2, h3, h4, ?_, ?_, ?_, ?_, ?_, ?_, ?_, ?_⟩
      · intro st hst
        dsimp only
        rcases List.mem_append.mp hst with hst | hst
        · have := h5 st hst; omega
        · rw [List.mem_singleton.mp hst]; simp
      · refine pairwise_append_singleton h6 ?_
        intro b hb
        have := h5 b hb
        dsimp only
        omega
      · intro a ha
        dsimp only
        rcases List.mem_append.mp ha with ha | ha
        · have := h7 a ha; omega
        · rw [List.mem_singleton.mp ha]; simp
      · refine pairwise_append_singleton h8 ?_
        intro b hb
        have := h7 b hb
        dsimp only
        omega
      · intro a ha
        dsimp only
        rcases List.mem_append.mp ha with ha | ha
        · exact h9 a ha
        · rw [List.mem_singleton.mp ha]
          exact h2 al halmem
      · intro a ha
        dsimp only
        rcases List.mem_append.mp ha with ha | ha
        · have := h10 a ha; omega
        · rw [List.mem_singleton.mp ha]; simp
      · refine pairwise_append_singleton h11 ?_
        intro b hb
        right
        have := h10 b hb
        dsimp only
        omega
      · intro a ha hst l hl hid
        dsimp only at hst hid ⊢
        rcases List.mem_append.mp ha with ha | ha
        · exact h12 a ha hst l hl hid
        · rw [List.mem_singleton.mp ha] at hst hid
          by_cases hexp : 1200000 < s.now - al.start_time
          · have hleq : l = al := key_eq_of_pairwise (fun x => x.id) h3 hl halmem hid
            rw [hleq]
            exact hexp
          · simp only [if_neg hexp] at hst
            cases hst

/-- `POST /api/lessons/start` preserves the invariant. -/
theorem inv_startLesson (s : Db) (h : Inv s) (r : StartReq) :
    Inv (applyOp s (Op.startLesson r)) := by
  obtain ⟨h1, h2, h3, h4, h5, h6, h7, h8, h9, h10, h11, h12⟩ := h
  simp only [applyOp, startLesson]
  split
  · exact ⟨h1, h2, h3, h4, h5, h6, h7, h8, h9, h10, h11, h12⟩
  · dsimp only
    refine ⟨?_, ?_, ?_, ?_, h5, h6, ?_, ?_, ?_, ?_, ?_, ?_⟩
    · intro l hl
      dsimp only
      rcases List.mem_append.mp hl with hl | hl
      · exact h1 l hl
      · rw [List.mem_singleton.mp hl]
    · intro l hl
      dsimp only
      rcases List.mem_append.mp hl with hl | hl
      · have := h2 l hl; omega
      · rw [List.mem_singleton.mp hl]; simp
    · refine pairwise_append_singleton h3 ?_
      intro b hb
      have := h2 b hb
      dsimp only
      omega
    · intro x hx y hy hxy
      rcases List.mem_append.mp hx with hx | hx <;>
        rcases List.mem_append.mp hy with hy | hy
      · exact h4 x hx y hy hxy
      · rw [List.mem_singleton.mp hy]
        exact h1 x hx
      · rw [List.mem_singleton.mp hx] at hxy
        have := h2 y hy
        dsimp only at hxy
        omega
      · rw [List.mem_singleton.mp hx, List.mem_singleton.mp hy] at hxy
        omega
    · intro a ha
      dsimp only
      rcases List.mem_append.mp ha with ha | ha
      · have := h7 a ha; omega
      · have := (mem_mkRows ha).2.2.2.2.2.1
        omega
    · refine List.pairwise_append.mpr ⟨h8, mkRows_pairwise_id _ _ _ _, ?_⟩
      intro a ha b hb
      have hb2 := (mem_mkRows hb).2.2.2.2.1
      have := h7 a ha
      omega
    · intro a ha
      dsimp only
      rcases List.mem_append.mp ha with ha | ha
      · have := h9 a ha; omega
      · rw [(mem_mkRows ha).1]; omega
    · intro a ha
      dsimp only
      rcases List.mem_append.mp ha with ha | ha
      · exact h10 a ha
      · obtain ⟨st, hst, hid⟩ := (mem_mkRows ha).2.2.2.2.2.2
        rw [← hid]
        exact h5 st hst
    · refine List.pairwise_append.mpr ⟨h11, mkRows_pairwise_pair _ _ h6 _, ?_⟩
      intro a ha b hb
      left
      rw [(mem_mkRows hb).1]
      have := h9 a ha
      omega
    · intro a ha hst l hl hid
      dsimp only at hst hid ⊢
      rcases List.mem_append.mp ha with ha | ha
      · rcases List.mem_append.mp hl with hl | hl
        · exact h12 a ha hst l hl hid
        · rw [List.mem_singleton.mp hl] at hid
          have := h9 a ha
          dsimp only at hid
          omega
      · rw [(mem_mkRows ha).2.1] at hst
        cases hst

/-- The lesson the 24-hour query picks is, in an invariant state, the
globally most recently created one. -/
theorem activeLessonQuery_max (s : Db)
    (h3 : s.lessons.Pairwise (fun x y => x.id ≠ y.id))
    (h4 : ∀ x ∈ s.lessons, ∀ y ∈ s.lessons, x.id < y.id → x.start_time ≤ y.start_time)
    {al : LessonRow} (hq : activeLessonQuery s = some al) :
    al ∈ s.lessons ∧ ∀ l ∈ s.lessons, l.id ≤ al.id := by
  rw [activeLessonQuery] at hq
  have hnd := h3.filter (fun l => decide (s.now < l.start_time + 86400000))
  obtain ⟨hmem, hmax⟩ := (latestBy_eq_some_iff (fun l : LessonRow => l.id) hnd al).mp hq
  have halmem : al ∈ s.lessons := (List.mem_filter.mp hmem).1
  refine ⟨halmem, ?_⟩
  intro l hl
  by_contra hgt
  push_neg at hgt
  have hstle : al.start_time ≤ l.start_time := h4 al halmem l hl hgt
  have halrec : s.now < al.start_time + 86400000 := by
    simpa using (List.mem_filter.mp hmem).2
  have hlf : l ∈ s.lessons.filter (fun l => decide (s.now < l.start_time + 86400000)) :=
    List.mem_filter.mpr ⟨hl, by simp; omega⟩
  have := hmax l hlf
  omega

/-- `POST /api/lessons/restart` preserves the invariant. -/
theorem inv_restart (s : Db) (h : Inv s) (g : Nat → String) :
    Inv (applyOp s (Op.restart g)) := by
  obtain ⟨h1, h2, h3, h4, h5, h6, h7, h8, h9, h10, h11, h12⟩ := h
  simp only [applyOp, restartLesson]
  split
  · exact ⟨h1, h2, h3, h4, h5, h6, h7, h8, h9, h10, h11, h12⟩
  · rename_i al heq
    obtain ⟨halmem, halmax⟩ := activeLessonQuery_max s h3 h4 heq
    dsimp only
    refine ⟨?_, ?_, ?_, ?_, h5, h6, ?_, ?_, ?_, ?_, ?_, ?_⟩
    · intro l' hl'
      dsimp only
      obtain ⟨l, hl, rfl⟩ := List.mem_map.mp hl'
      by_cases e : l.id = al.id
      · rw [if_pos e]
      · rw [if_neg e]
        exact h1 l hl
    · intro l' hl'
      dsimp only
      obtain ⟨l, hl, rfl⟩ := List.mem_map.mp hl'
      by_cases e : l.id = al.id
      · rw [if_pos e]
        dsimp only
        rw [e]
        exact h2 al halmem
      · rw [if_neg e]
        exact h2 l hl
    · rw [List.pairwise_map]
      refine h3.imp ?_
      intro x y hxy
      by_cases ex : x.id = al.id <;> by_cases ey : y.id = al.id <;>
        simp [ex, ey] <;> omega
    · intro x' hx' y' hy' hxy
      obtain ⟨x, hx, rfl⟩ := List.mem_map.mp hx'
      obtain ⟨y, hy, rfl⟩ := List.mem_map.mp hy'
      by_cases ex : x.id = al.id <;> by_cases ey : y.id = al.id
      · simp only [if_pos ex, if_pos ey] at hxy ⊢
        omega
      · simp only [if_pos ex, if_neg ey] at hxy ⊢
        have := halmax y hy
        omega
      · simp only [if_neg ex, if_pos ey] at hxy ⊢
        exact h1 x hx
      · simp only [if_neg ex, if_neg ey] at hxy ⊢
        exact h4 x hx y hy hxy
    · intro a ha
      dsimp only
      rcases List.mem_append.mp ha with ha | ha
      · have := h7 a (List.mem_of_mem_filter ha); omega
      · have := (mem_mkRows ha).2.2.2.2.2.1
        omega
    · refine List.pairwise_append.mpr ⟨h8.filter _, mkRows_pairwise_id _ _ _ _, ?_⟩
      intro a ha b hb
      have hb2 := (mem_mkRows hb).2.2.2.2.1
      have := h7 a (List.mem_of_mem_filter ha)
      omega
    · intro a ha
      dsimp only
      rcases List.mem_append.mp ha with ha | ha
      · exact h9 a (List.mem_of_mem_filter ha)
      · rw [(mem_mkRows ha).1]
        exact h2 al halmem
    · intro a ha
      dsimp only
      rcases List.mem_append.mp ha with ha | ha
      · exact h10 a (List.mem_of_mem_filter ha)
      · obtain ⟨st, hst, hid⟩ := (mem_mkRows ha).2.2.2.2.2.2
        rw [← hid]
        exact h5 st hst
    · refine List.pairwise_append.mpr ⟨h11.filter _, mkRows_pairwise_pair _ _ h6 _, ?_⟩
      intro a ha b hb
      left
      rw [(mem_mkRows hb).1]
      have := (List.mem_filter.mp ha).2
      simpa using this
    · intro a ha hst l' hl' hid
      dsimp only at hst hid ⊢
      rcases List.mem_append.mp ha with ha | ha
      · have hane : a.lesson_id ≠ al.id := by
          have := (List.mem_filter.mp ha).2
          simpa using this
        obtain ⟨l, hl, rfl⟩ := List.mem_map.mp hl'
        by_cases e : l.id = al.id
        · rw [if_pos e] at hid
          dsimp only at hid
          exact absurd (hid ▸ e) hane
        · rw [if_neg e] at hid ⊢
          exact h12 a (List.mem_of_mem_filter ha) hst l hl hid
      · rw [(mem_mkRows ha).2.1] at hst
        cases hst

/-- Updating lesson rows while keeping ids and start times preserves the
invariant (covers `enable-otp` and the lecturer mark). -/
theorem inv_map_lessons (s : Db) (h : Inv s) (f : LessonRow → LessonRow)
    (hid : ∀ l, (f l).id = l.id) (hst : ∀ l, (f l).start_time = l.start_time) :
    Inv { s with lessons := s.lessons.map f } := by
  obtain ⟨h1, h2, h3, h4, h5, h6, h7, h8, h9, h10, h11, h12⟩ := h
  refine ⟨?_, ?_, ?_, ?_, h5, h6, h7, h8, h9, h10, h11, ?_⟩
  · intro l' hl'
    obtain ⟨l, hl, rfl⟩ := List.mem_map.mp hl'
    rw [hst]
    exact h1 l hl
  · intro l' hl'
    obtain ⟨l, hl, rfl⟩ := List.mem_map.mp hl'
    rw [hid]
    exact h2 l hl
  · rw [List.pairwise_map]
    refine h3.imp ?_
    intro x y hxy
    rw [hid, hid]
    exact hxy
  · intro x' hx' y' hy' hxy
    obtain ⟨x, hx, rfl⟩ := List.mem_map.mp hx'
    obtain ⟨y, hy, rfl⟩ := List.mem_map.mp hy'
    rw [hid, hid] at hxy
    rw [hst, hst]
    exact h4 x hx y hy hxy
  · intro a ha hstt l' hl' hidd
    obtain ⟨l, hl, rfl⟩ := List.mem_map.mp hl'
    rw [hid] at hidd
    rw [hst]
    exact h12 a ha hstt l hl hidd

/-- `POST /api/lessons/:id/enable-otp` preserves the invariant. -/
theorem inv_enableOtp (s : Db) (h : Inv s) (lid : Nat) :
    Inv (applyOp s (Op.enableOtp lid)) := by
  simp only [applyOp, enableOtp]
  refine inv_map_lessons s h _ ?_ ?_ <;> intro l <;> by_cases e : l.id = lid
  · rw [if_pos e]
  · rw [if_neg e]
  · rw [if_pos e]
  · rw [if_neg e]

/-- `POST /api/lecturer/mark` preserves the invariant. -/
theorem inv_lecturerMark (s : Db) (h : Inv s) (lid : Nat) (otp : String) :
    Inv (applyOp s (Op.lecturerMark lid otp)) := by
  obtain ⟨h1, h2, h3, h4, h5, h6, h7, h8, h9, h10, h11, h12⟩ := h
  simp only [applyOp, lecturerMark]
  split
  · exact ⟨h1, h2, h3, h4, h5, h6, h7, h8, h9, h10, h11, h12⟩
  · split
    · dsimp only
      refine inv_map_lessons s ⟨h1, h2, h3, h4, h5, h6, h7, h8, h9, h10, h11, h12⟩ _ ?_ ?_ <;>
        intro l <;> by_cases e : l.id = lid
      · rw [if_pos e]
      · rw [if_neg e]
      · rw [if_pos e]
      · rw [if_neg e]
    · exact ⟨h1, h2, h3, h4, h5, h6, h7, h8, h9, h10, h11, h12⟩

/-- `GET /api/lessons/active` (with its lazy expiry sweep) preserves the
invariant. -/
theorem inv_pollActive (s : Db) (h : Inv s) : Inv (applyOp s Op.pollActive) := by
  obtain ⟨h1, h2, h3, h4, h5, h6, h7, h8, h9, h10, h11, h12⟩ := h
  simp only [applyOp, getActiveLesson]
  split
  · exact ⟨h1, h2, h3, h4, h5, h6, h7, h8, h9, h10, h11, h12⟩
  · rename_i L hL
    have hLmem : L ∈ s.lessons :=
      (List.mem_filter.mp (latestBy_mem (fun l : LessonRow => l.id) hL)).1
    split
    · exact ⟨h1, h2, h3, h4, h5, h6, h7, h8, h9, h10, h11, h12⟩
    · split
      · rename_i h24 h20
        dsimp only
        refine ⟨h1, h2, h3, h4, h5, h6, ?_, ?_, ?_, ?_, ?_, ?_⟩
        · intro a' ha'
          dsimp only
          obtain ⟨a, ha, rfl⟩ := List.mem_map.mp ha'
          by_cases e : a.lesson_id = L.id ∧ a.status = Status.pending
          · rw [if_pos e]
            exact h7 a ha
          · rw [if_neg e]
            exact h7 a ha
        · rw [List.pairwise_map]
          refine h8.imp ?_
          intro x y hxy
          by_cases ex : x.lesson_id = L.id ∧ x.status = Status.pending <;>
            by_cases ey : y.lesson_id = L.id ∧ y.status = Status.pending
          · simp only [if_pos ex, if_pos ey]; exact hxy
          · simp only [if_pos ex, if_neg ey]; exact hxy
          · simp only [if_neg ex, if_pos ey]; exact hxy
          · simp only [if_neg ex, if_neg ey]; exact hxy
        · intro a' ha'
          dsimp only
          obtain ⟨a, ha, rfl⟩ := List.mem_map.mp ha'
          by_cases e : a.lesson_id = L.id ∧ a.status = Status.pending
          · rw [if_pos e]
            exact h9 a ha
          · rw [if_neg e]
            exact h9 a ha
        · intro a' ha'
          dsimp only
          obtain ⟨a, ha, rfl⟩ := List.mem_map.mp ha'
          by_cases e : a.lesson_id = L.id ∧ a.status = Status.pending
          · rw [if_pos e]
            exact h10 a ha
          · rw [if_neg e]
            exact h10 a ha
        · rw [List.pairwise_map]
          refine h11.imp ?_
          intro x y hxy
          by_cases ex : x.lesson_id = L.id ∧ x.status = Status.pending <;>
            by_cases ey : y.lesson_id = L.id ∧ y.status = Status.pending
          · simp only [if_pos ex, if_pos ey]; exact hxy
          · simp only [if_pos ex, if_neg ey]; exact hxy
          · simp only [if_neg ex, if_pos ey]; exact hxy
          · simp only [if_neg ex, if_neg ey]; exact hxy
        · intro a' ha' hstt l hl hid
          dsimp only at hid ⊢
          obtain ⟨a, ha, rfl⟩ := List.mem_map.mp ha'
          by_cases e : a.lesson_id = L.id ∧ a.status = Status.pending
          · rw [if_pos e] at hstt hid
            dsimp only at hid
            have hlL : l = L := key_eq_of_pairwise (fun x => x.id) h3 hl hLmem (hid.trans e.1)
            rw [hlL]
            exact h20
          · rw [if_neg e] at hstt hid
            exact h12 a ha hstt l hl hid
      · exact ⟨h1, h2, h3, h4, h5, h6, h7, h8, h9, h10, h11, h12⟩

/-- `POST /api/attendance/mark` preserves the invariant. -/
theorem inv_mark (s : Db) (h : Inv s) (lid sid : Nat) (otp : String) :
    Inv (applyOp s (Op.mark lid sid otp)) := by
  obtain ⟨h1, h2, h3, h4, h5, h6, h7, h8, h9, h10, h11, h12⟩ := h
  simp only [applyOp, markAttendance]
  split
  · exact ⟨h1, h2, h3, h4, h5, h6, h7, h8, h9, h10, h11, h12⟩
  · rename_i l0 hl0
    have hl0mem : l0 ∈ s.lessons := List.mem_of_find?_eq_some hl0
    have hl0id : l0.id = lid := by simpa using List.find?_some hl0
    split
    · exact ⟨h1, h2, h3, h4, h5, h6, h7, h8, h9, h10, h11, h12⟩
    · split
      · -- expired branch: this student's pending row flips to absent
        rename_i hen hexp
        dsimp only
        refine ⟨h1, h2, h3, h4, h5, h6, ?_, ?_, ?_, ?_, ?_, ?_⟩
        · intro a' ha'
          dsimp only
          obtain ⟨a, ha, rfl⟩ := List.mem_map.mp ha'
          by_cases e : a.lesson_id = lid ∧ a.student_id = sid ∧ a.status = Status.pending
          · rw [if_pos e]; exact h7 a ha
          · rw [if_neg e]; exact h7 a ha
        · rw [List.pairwise_map]
          refine h8.imp ?_
          intro x y hxy
          by_cases ex : x.lesson_id = lid ∧ x.student_id = sid ∧ x.status = Status.pending <;>
            by_cases ey : y.lesson_id = lid ∧ y.student_id = sid ∧ y.status = Status.pending
          · simp only [if_pos ex, if_pos ey]; exact hxy
          · simp only [if_pos ex, if_neg ey]; exact hxy
          · simp only [if_neg ex, if_pos ey]; exact hxy
          · simp only [if_neg ex, if_neg ey]; exact hxy
        · intro a' ha'
          dsimp only
          obtain ⟨a, ha, rfl⟩ := List.mem_map.mp ha'
          by_cases e : a.lesson_id = lid ∧ a.student_id = sid ∧ a.status = Status.pending
          · rw [if_pos e]; exact h9 a ha
          · rw [if_neg e]; exact h9 a ha
        · intro a' ha'
          dsimp only
          obtain ⟨a, ha, rfl⟩ := List.mem_map.mp ha'
          by_cases e : a.lesson_id = lid ∧ a.student_id = sid ∧ a.status = Status.pending
          · rw [if_pos e]; exact h10 a ha
          · rw [if_neg e]; exact h10 a ha
        · rw [List.pairwise_map]
          refine h11.imp ?_
          intro x y hxy
          by_cases ex : x.lesson_id = lid ∧ x.student_id = sid ∧ x.status = Status.pending <;>
            by_cases ey : y.lesson_id = lid ∧ y.student_id = sid ∧ y.status = Status.pending
          · simp only [if_pos ex, if_pos ey]; exact hxy
          · simp only [if_pos ex, if_neg ey]; exact hxy
          · simp only [if_neg ex, if_pos ey]; exact hxy
          · simp only [if_neg ex, if_neg ey]; exact hxy
        · intro a' ha' hstt l hl hid
          dsimp only at hid ⊢
          obtain ⟨a, ha, rfl⟩ := List.mem_map.mp ha'
          by_cases e : a.lesson_id = lid ∧ a.student_id = sid ∧ a.status = Status.pending
          · rw [if_pos e] at hstt hid
            dsimp only at hid
            have hlL : l = l0 := key_eq_of_pairwise (fun x => x.id) h3 hl hl0mem
              (hid.trans (e.1.trans hl0id.symm))
            rw [hlL]
            exact hexp
          · rw [if_neg e] at hstt hid
            exact h12 a ha hstt l hl hid
      · split
        · exact ⟨h1, h2, h3, h4, h5, h6, h7, h8, h9, h10, h11, h12⟩
        · rename_i r0 hr0
          split
          · exact ⟨h1, h2, h3, h4, h5, h6, h7, h8, h9, h10, h11, h12⟩
          · -- success branch: row `r0` becomes present
            dsimp only
            refine ⟨h1, h2, h3, h4, h5, h6, ?_, ?_, ?_, ?_, ?_, ?_⟩
            · intro a' ha'
              dsimp only
              obtain ⟨a, ha, rfl⟩ := List.mem_map.mp ha'
              by_cases e : a.id = r0.id
              · rw [if_pos e]; exact h7 a ha
              · rw [if_neg e]; exact h7 a ha
            · rw [List.pairwise_map]
              refine h8.imp ?_
              intro x y hxy
              by_cases ex : x.id = r0.id <;> by_cases ey : y.id = r0.id
              · simp only [if_pos ex, if_pos ey]; exact hxy
              · simp only [if_pos ex, if_neg ey]; exact hxy
              · simp only [if_neg ex, if_pos ey]; exact hxy
              · simp only [if_neg ex, if_neg ey]; exact hxy
            · intro a' ha'
              dsimp only
              obtain ⟨a, ha, rfl⟩ := List.mem_map.mp ha'
              by_cases e : a.id = r0.id
              · rw [if_pos e]; exact h9 a ha
              · rw [if_neg e]; exact h9 a ha
            · intro a' ha'
              dsimp only
              obtain ⟨a, ha, rfl⟩ := List.mem_map.mp ha'
              by_cases e : a.id = r0.id
              · rw [if_pos e]; exact h10 a ha
              · rw [if_neg e]; exact h10 a ha
            · rw [List.pairwise_map]
              refine h11.imp ?_
              intro x y hxy
              by_cases ex : x.id = r0.id <;> by_cases ey : y.id = r0.id
              · simp only [if_pos ex, if_pos ey]; exact hxy
              · simp only [if_pos ex, if_neg ey]; exact hxy
              · simp only [if_neg ex, if_pos ey]; exact hxy
              · simp only [if_neg ex, if_neg ey]; exact hxy
            · intro a' ha' hstt l hl hid
              dsimp only at hid ⊢
              obtain ⟨a, ha, rfl⟩ := List.mem_map.mp ha'
              by_cases e : a.id = r0.id
              · rw [if_pos e] at hstt
                cases hstt
              · rw [if_neg e] at hstt hid
                exact h12 a ha hstt l hl hid

/-- `DELETE /api/students/:id` preserves the invariant. -/
theorem inv_deleteStudent (s : Db) (h : Inv s) (i : Nat) :
    Inv (applyOp s (Op.deleteStudent i)) := by
  obtain ⟨h1, h2, h3, h4, h5, h6, h7, h8, h9, h10, h11, h12⟩ := h
  simp only [applyOp, deleteStudent]
  refine ⟨h1, h2, h3, h4, ?_, h6.filter _, ?_, h8.filter _, ?_, ?_, h11.filter _, ?_⟩
  · intro st hst
    exact h5 st (List.mem_of_mem_filter hst)
  · intro a ha
    exact h7 a (List.mem_of_mem_filter ha)
  · intro a ha
    exact h9 a (List.mem_of_mem_filter ha)
  · intro a ha
    exact h10 a (List.mem_of_mem_filter ha)
  · intro a ha hstt l hl hid
    exact h12 a (List.mem_of_mem_filter ha) hstt l hl hid

/-- `DELETE /api/units/:id` (which always throws) preserves the invariant. -/
theorem inv_deleteUnit (s : Db) (h : Inv s) (i : Nat) :
    Inv (applyOp s (Op.deleteUnit i)) := by
  obtain ⟨h1, h2, h3, h4, h5, h6, h7, h8, h9, h10, h11, h12⟩ := h
  exact ⟨h1, h2, h3, h4, h5, h6, h7, h8, h9, h10, h11, h12⟩

/-- Every reachable state satisfies the invariant. -/
theorem reachable_inv : ∀ {s : Db}, Reachable s → Inv s := by
  intro s h
  induction h with
  | init => exact inv_init
  | step s op _ ih =>
    cases op with
    | tick t => exact inv_tick s ih t
    | register name adm otp => exact inv_register s ih name adm otp
    | addUnit name lecturer => exact inv_addUnit s ih name lecturer
    | startLesson r => exact inv_startLesson s ih r
    | restart g => exact inv_restart s ih g
    | enableOtp lid => exact inv_enableOtp s ih lid
    | lecturerMark lid otp => exact inv_lecturerMark s ih lid otp
    | pollActive => exact inv_pollActive s ih
    | mark lid sid otp => exact inv_mark s ih lid sid otp
    | deleteStudent i => exact inv_deleteStudent s ih i
    | deleteUnit i => exact inv_deleteUnit s ih i

/-- The state `w5` arises from a run of the handlers. -/
theorem reachable_w5 : Reachable w5 :=
  Reachable.step w4 (Op.enableOtp 1)
    (Reachable.step w3 (Op.startLesson reqW)
      (Reachable.step w2 (Op.addUnit "CS101" "Dr. Smith")
        (Reachable.step w1 (Op.register "Bob" "A002" "000000")
          (Reachable.step Db.init (Op.register "Alice" "A001" "000000") Reachable.init))))

/-- The state `w6` arises from a run of the handlers. -/
theorem reachable_w6 : Reachable w6 :=
  Reachable.step w5 (Op.mark 1 1 "111111") reachable_w5

/-- The state `x6` arises from a run of the handlers. -/
theorem reachable_x6 : Reachable x6 :=
  Reachable.step w5 (Op.tick 1200001) reachable_w5

/-- The state `y6` arises from a run of the handlers. -/
theorem reachable_y6 : Reachable y6 :=
  Reachable.step w5 (Op.restart (fun _ => "333333")) reachable_w5

/-- The state `z2` arises from a run of the handlers. -/
theorem reachable_z2 : Reachable z2 :=
  Reachable.step z1 (Op.startLesson reqZ)
    (Reachable.step Db.init (Op.addUnit "CS101" "Dr. Smith") Reachable.init)

/-- The state `q1` arises from a run of the handlers. -/
theorem reachable_q1 : Reachable q1 :=
  Reachable.step Db.init (Op.startLesson reqQ) Reachable.init

/-- The expired branch of `POST /api/attendance/mark` in one equation. -/
theorem mark_expired_state (s : Db) (lid sid : Nat) (otp : String) (l : LessonRow)
    (hl : s.lessons.find? (fun x => x.id == lid) = some l) (he : l.otp_enabled = true)
    (ht : 1200000 < s.now - l.start_time) :
    markAttendance s lid sid otp =
      (MarkResult.expired,
        { s with attendance := s.attendance.map (fun a =>
            if a.lesson_id = lid ∧ a.student_id = sid ∧ a.status = Status.pending
            then { a with status := Status.absent } else a) }) := by
  simp only [markAttendance, hl]
  rw [if_neg (by rw [he]; simp), if_pos ht]

/-- Any attendance row after one operation is a fresh row, an unchanged old
row, or an old pending row flipped to absent or promoted to present. -/
theorem step_att (s : Db) (h : Inv s) (op : Op) :
    ∀ a2 ∈ (applyOp s op).attendance,
      s.nextAttendanceId ≤ a2.id ∨
      ∃ a ∈ s.attendance, a.id = a2.id ∧
        (a2 = a ∨ (a.status = Status.pending ∧
          (a2 = { a with status := Status.absent } ∨
           a2 = { a with status := Status.present, marked_at := some s.now }))) := by
  obtain ⟨h1, h2, h3, h4, h5, h6, h7, h8, h9, h10, h11, h12⟩ := h
  intro a2 ha2
  cases op with
  | tick t => exact Or.inr ⟨a2, ha2, rfl, Or.inl rfl⟩
  | addUnit name lecturer => exact Or.inr ⟨a2, ha2, rfl, Or.inl rfl⟩
  | enableOtp lid => exact Or.inr ⟨a2, ha2, rfl, Or.inl rfl⟩
  | deleteStudent i =>
    exact Or.inr ⟨a2, List.mem_of_mem_filter ha2, rfl, Or.inl rfl⟩
  | deleteUnit i => exact Or.inr ⟨a2, ha2, rfl, Or.inl rfl⟩
  | lecturerMark lid otp =>
    simp only [applyOp, lecturerMark] at ha2
    split at ha2
    · exact Or.inr ⟨a2, ha2, rfl, Or.inl rfl⟩
    · split at ha2
      · exact Or.inr ⟨a2, ha2, rfl, Or.inl rfl⟩
      · exact Or.inr ⟨a2, ha2, rfl, Or.inl rfl⟩
  | register name adm otp =>
    simp only [applyOp, registerStudent] at ha2
    split at ha2
    · exact Or.inr ⟨a2, ha2, rfl, Or.inl rfl⟩
    · split at ha2
      · exact Or.inr ⟨a2, ha2, rfl, Or.inl rfl⟩
      · dsimp only at ha2
        rcases List.mem_append.mp ha2 with ha2 | ha2
        · exact Or.inr ⟨a2, ha2, rfl, Or.inl rfl⟩
        · rw [List.mem_singleton.mp ha2]
          exact Or.inl (le_refl _)
  | startLesson r =>
    simp only [applyOp, startLesson] at ha2
    split at ha2
    · exact Or.inr ⟨a2, ha2, rfl, Or.inl rfl⟩
    · dsimp only at ha2
      rcases List.mem_append.mp ha2 with ha2 | ha2
      · exact Or.inr ⟨a2, ha2, rfl, Or.inl rfl⟩
      · exact Or.inl (mem_mkRows ha2).2.2.2.2.1
  | restart g =>
    simp only [applyOp, restartLesson] at ha2
    split at ha2
    · exact Or.inr ⟨a2, ha2, rfl, Or.inl rfl⟩
    · dsimp only at ha2
      rcases List.mem_append.mp ha2 with ha2 | ha2
      · exact Or.inr ⟨a2, List.mem_of_mem_filter ha2, rfl, Or.inl rfl⟩
      · exact Or.inl (mem_mkRows ha2).2.2.2.2.1
  | pollActive =>
    simp only [applyOp, getActiveLesson] at ha2
    split at ha2
    · exact Or.inr ⟨a2, ha2, rfl, Or.inl rfl⟩
    · split at ha2
      · exact Or.inr ⟨a2, ha2, rfl, Or.inl rfl⟩
      · split at ha2
        · rename_i L hL h24 h20
          dsimp only at ha2
          obtain ⟨a, ha, rfl⟩ := List.mem_map.mp ha2
          by_cases e : a.lesson_id = L.id ∧ a.status = Status.pending
          · rw [if_pos e]
            exact Or.inr ⟨a, ha, rfl, Or.inr ⟨e.2, Or.inl rfl⟩⟩
          · rw [if_neg e]
            exact Or.inr ⟨a, ha, rfl, Or.inl rfl⟩
        · exact Or.inr ⟨a2, ha2, rfl, Or.inl rfl⟩
  | mark lid sid otp =>
    simp only [applyOp, markAttendance] at ha2
    split at ha2
    · exact Or.inr ⟨a2, ha2, rfl, Or.inl rfl⟩
    · rename_i l0 hfind
      have hl0mem : l0 ∈ s.lessons := List.mem_of_find?_eq_some hfind
      have hl0id : l0.id = lid := by simpa using List.find?_some hfind
      split at ha2
      · exact Or.inr ⟨a2, ha2, rfl, Or.inl rfl⟩
      · split at ha2
        · dsimp only at ha2
          obtain ⟨a, ha, rfl⟩ := List.mem_map.mp ha2
          by_cases e : a.lesson_id = lid ∧ a.student_id = sid ∧ a.status = Status.pending
          · rw [if_pos e]
            exact Or.inr ⟨a, ha, rfl, Or.inr ⟨e.2.2, Or.inl rfl⟩⟩
          · rw [if_neg e]
            exact Or.inr ⟨a, ha, rfl, Or.inl rfl⟩
        · rename_i hen hexp
          split at ha2
          · exact Or.inr ⟨a2, ha2, rfl, Or.inl rfl⟩
          · rename_i r0 hfr
            have hr0mem : r0 ∈ s.attendance := List.mem_of_find?_eq_some hfr
            have hr0p := List.find?_some hfr
            have hr0lid : r0.lesson_id = lid := by
              simp only [Bool.and_eq_true, beq_iff_eq] at hr0p
              exact hr0p.1.1
            split at ha2
            · exact Or.inr ⟨a2, ha2, rfl, Or.inl rfl⟩
            · rename_i hpr
              dsimp only at ha2
              obtain ⟨a, ha, rfl⟩ := List.mem_map.mp ha2
              by_cases e : a.id = r0.id
              · rw [if_pos e]
                have har : a = r0 := key_eq_of_pairwise (fun x => x.id) h8 ha hr0mem e
                subst har
                have hpend : a.status = Status.pending := by
                  cases hs : a.status with
                  | pending => rfl
                  | present => exact absurd hs hpr
                  | absent =>
                    have := h12 a ha hs l0 hl0mem (hl0id.trans hr0lid.symm)
                    omega
                exact Or.inr ⟨a, ha, rfl, Or.inr ⟨hpend, Or.inr rfl⟩⟩
              · rw [if_neg e]
                exact Or.inr ⟨a, ha, rfl, Or.inl rfl⟩

/-- Any lesson row after one non-restart operation is a fresh row, an
unchanged old row, or an old row with `otp_enabled` or `lecturer_present`
switched on. -/
theorem step_lessons (s : Db) (op : Op) (hop : ∀ g, op ≠ Op.restart g) :
    ∀ l2 ∈ (applyOp s op).lessons,
      s.nextLessonId ≤ l2.id ∨
      ∃ l ∈ s.lessons, l.id = l2.id ∧
        (l2 = l ∨ l2 = { l with otp_enabled := true } ∨
         l2 = { l with lecturer_present := true }) := by
  intro l2 hl2
  cases op with
  | tick t => exact Or.inr ⟨l2, hl2, rfl, Or.inl rfl⟩
  | addUnit name lecturer => exact Or.inr ⟨l2, hl2, rfl, Or.inl rfl⟩
  | deleteStudent i => exact Or.inr ⟨l2, hl2, rfl, Or.inl rfl⟩
  | deleteUnit i => exact Or.inr ⟨l2, hl2, rfl, Or.inl rfl⟩
  | pollActive =>
    simp only [applyOp, getActiveLesson] at hl2
    split at hl2
    · exact Or.inr ⟨l2, hl2, rfl, Or.inl rfl⟩
    · split at hl2
      · exact Or.inr ⟨l2, hl2, rfl, Or.inl rfl⟩
      · split at hl2
        · exact Or.inr ⟨l2, hl2, rfl, Or.inl rfl⟩
        · exact Or.inr ⟨l2, hl2, rfl, Or.inl rfl⟩
  | register name adm otp =>
    simp only [applyOp, registerStudent] at hl2
    split at hl2
    · exact Or.inr ⟨l2, hl2, rfl, Or.inl rfl⟩
    · split at hl2
      · exact Or.inr ⟨l2, hl2, rfl, Or.inl rfl⟩
      · exact Or.inr ⟨l2, hl2, rfl, Or.inl rfl⟩
  | startLesson r =>
    simp only [applyOp, startLesson] at hl2
    split at hl2
    · exact Or.inr ⟨l2, hl2, rfl, Or.inl rfl⟩
    · dsimp only at hl2
      rcases List.mem_append.mp hl2 with hl2 | hl2
      · exact Or.inr ⟨l2, hl2, rfl, Or.inl rfl⟩
      · rw [List.mem_singleton.mp hl2]
        exact Or.inl (le_refl _)
  | restart g => exact absurd rfl (hop g)
  | enableOtp lid =>
    simp only [applyOp, enableOtp] at hl2
    obtain ⟨l, hl, rfl⟩ := List.mem_map.mp hl2
    by_cases e : l.id = lid
    · rw [if_pos e]
      exact Or.inr ⟨l, hl, rfl, Or.inr (Or.inl rfl)⟩
    · rw [if_neg e]
      exact Or.inr ⟨l, hl, rfl, Or.inl rfl⟩
  | lecturerMark lid otp =>
    simp only [applyOp, lecturerMark] at hl2
    split at hl2
    · exact Or.inr ⟨l2, hl2, rfl, Or.inl rfl⟩
    · split at hl2
      · dsimp only at hl2
        obtain ⟨l, hl, rfl⟩ := List.mem_map.mp hl2
        by_cases e : l.id = lid
        · rw [if_pos e]
          exact Or.inr ⟨l, hl, rfl, Or.inr (Or.inr rfl)⟩
        · rw [if_neg e]
          exact Or.inr ⟨l, hl, rfl, Or.inl rfl⟩
      · exact Or.inr ⟨l2, hl2, rfl, Or.inl rfl⟩
  | mark lid sid otp =>
    simp only [applyOp, markAttendance] at hl2
    split at hl2
    · exact Or.inr ⟨l2, hl2, rfl, Or.inl rfl⟩
    · split at hl2
      · exact Or.inr ⟨l2, hl2, rfl, Or.inl rfl⟩
      · split at hl2
        · exact Or.inr ⟨l2, hl2, rfl, Or.inl rfl⟩
        · split at hl2
          · exact Or.inr ⟨l2, hl2, rfl, Or.inl rfl⟩
          · split at hl2
            · exact Or.inr ⟨l2, hl2, rfl, Or.inl rfl⟩
            · exact Or.inr ⟨l2, hl2, rfl, Or.inl rfl⟩

/-- C2: in every reachable state, one operation never changes an attendance
row whose status is `present`, and any status change starts from `pending`.
Consequently, over any reachable run each row undergoes at most one
transition — `pending→present` or `pending→absent` — and `present` is
terminal. -/
theorem attendance_single_transition (s : Db) (h : Reachable s) (op : Op)
    (a a2 : AttendanceRow) (ha : a ∈ s.attendance)
    (ha2 : a2 ∈ (applyOp s op).attendance) (hid : a2.id = a.id) :
    (a.status = Status.present → a2.status = Status.present) ∧
    (a2.status ≠ a.status → a.status = Status.pending) := by
  have hInv := reachable_inv h
  rcases step_att s hInv op a2 ha2 with hfresh | ⟨b, hb, hbid, hc⟩
  · have := hInv.attIdLt a ha
    omega
  · have hba : b = a := key_eq_of_pairwise (fun x => x.id) hInv.attNodup hb ha
      (hbid.trans hid)
    subst hba
    rcases hc with rfl | ⟨hpend, hflip⟩
    · exact ⟨fun hp => hp, fun hne => absurd rfl hne⟩
    · rcases hflip with rfl | rfl
      · refine ⟨fun hp => ?_, fun _ => hpend⟩
        rw [hpend] at hp
        cases hp
      · exact ⟨fun _ => rfl, fun _ => hpend⟩

/-- Witness for C2: the mark operation on the run `w5` leaves student 2's
pending row untouched; the step theorem instantiates on it. -/
theorem attendance_single_transition_witness :
    (rowW2.status = Status.present → rowW2.status = Status.present) ∧
    (rowW2.status ≠ rowW2.status → rowW2.status = Status.pending) :=
  attendance_single_transition w5 reachable_w5 (Op.mark 1 1 "111111") rowW2 rowW2
    (by decide) (by decide) rfl

/-- C5 (amended): once a lesson's `otp_enabled` flag is 1, every operation
except `POST /api/lessons/restart` keeps it 1; restart resets the active
lesson's flag to 0. -/
theorem otp_enabled_one_way_amended (s : Db) (h : Reachable s) :
    (∀ op, (∀ g, op ≠ Op.restart g) → ∀ l ∈ s.lessons, l.otp_enabled = true →
      ∀ l2 ∈ (applyOp s op).lessons, l2.id = l.id → l2.otp_enabled = true) ∧
    (∀ g al, activeLessonQuery s = some al →
      ∀ l2 ∈ (applyOp s (Op.restart g)).lessons, l2.id = al.id →
        l2.otp_enabled = false) := by
  have hInv := reachable_inv h
  constructor
  · intro op hop l hl he l2 hl2 hid
    rcases step_lessons s op hop l2 hl2 with hfresh | ⟨b, hb, hbid, hc⟩
    · have := hInv.lessonIdLt l hl
      omega
    · have hbl : b = l := key_eq_of_pairwise (fun x => x.id) hInv.lessonNodup hb hl
        (hbid.trans hid)
      subst hbl
      rcases hc with rfl | rfl | rfl
      · exact he
      · rfl
      · exact he
  · intro g al heq l2 hl2 hid
    simp only [applyOp, restartLesson, heq] at hl2
    obtain ⟨l, hl, rfl⟩ := List.mem_map.mp hl2
    by_cases e : l.id = al.id
    · rw [if_pos e]
    · rw [if_neg e] at hid
      exact absurd hid e

/-- Witness for C5 (amended), on the run `w5`: `enable-otp` keeps lesson 1
enabled, restarting disables it. -/
theorem otp_enabled_one_way_amended_witness :
    lessonW.otp_enabled = true ∧ lessonRW.otp_enabled = false := by
  have h := otp_enabled_one_way_amended w5 reachable_w5
  refine ⟨?_, ?_⟩
  · exact h.1 (Op.enableOtp 1) (fun g hc => by cases hc) lessonW (by decide) rfl
      lessonW (by decide) rfl
  · exact h.2 (fun _ => "333333") lessonW (by decide) lessonRW (by decide) rfl

/-- C5 counterexample: the reachable run that enables OTP input for lesson 1
(`w5`) and then restarts the session (`y6`) resets `otp_enabled` to 0, so the
flag flip is not one-way. -/
theorem otp_enabled_counterexample :
    Reachable w5 ∧ lessonW ∈ w5.lessons ∧ lessonW.otp_enabled = true ∧
    y6 = applyOp w5 (Op.restart (fun _ => "333333")) ∧
    lessonRW ∈ y6.lessons ∧ lessonRW.id = lessonW.id ∧
    lessonRW.otp_enabled = false :=
  ⟨reachable_w5, by decide, by decide, rfl, by decide, by decide, by decide⟩

/-- C9: a late submission (`otp_enabled` set, more than 20 minutes elapsed) is
rejected with an error, yet still flips the submitting student's pending row
for that lesson to `absent`; every other student's rows are unchanged. -/
theorem mark_expired_not_atomic (s : Db) (lid sid : Nat) (otp : String) (l : LessonRow)
    (hl : s.lessons.find? (fun x => x.id == lid) = some l) (he : l.otp_enabled = true)
    (ht : 1200000 < s.now - l.start_time) :
    (markAttendance s lid sid otp).1 = MarkResult.expired ∧
    (markAttendance s lid sid otp).2.attendance.length = s.attendance.length ∧
    (∀ a ∈ s.attendance, a.lesson_id = lid → a.student_id = sid →
      a.status = Status.pending →
      { a with status := Status.absent } ∈ (markAttendance s lid sid otp).2.attendance) ∧
    (∀ a ∈ s.attendance, a.student_id ≠ sid →
      a ∈ (markAttendance s lid sid otp).2.attendance) := by
  rw [mark_expired_state s lid sid otp l hl he ht]
  dsimp only
  refine ⟨rfl, by rw [List.length_map], ?_, ?_⟩
  · intro a ha h1 h2 h3
    exact List.mem_map.mpr ⟨a, ha, by rw [if_pos ⟨h1, h2, h3⟩]⟩
  · intro a ha hne
    exact List.mem_map.mpr ⟨a, ha, by rw [if_neg (fun hc => hne hc.2.1)]⟩

/-- Witness for C9 on the run `x6`: student 2's late submission is rejected
while their row flips to absent. -/
theorem mark_expired_not_atomic_witness :
    (markAttendance x6 1 2 "222222").1 = MarkResult.expired ∧
    { rowW2 with status := Status.absent } ∈ (markAttendance x6 1 2 "222222").2.attendance := by
  have h := mark_expired_not_atomic x6 1 2 "222222" lessonW (by decide) (by decide)
    (by decide)
  exact ⟨h.1, h.2.2.1 rowW2 (by decide) (by decide) (by decide) (by decide)⟩

/-- C3 (amended): when more than 20 minutes have elapsed, (a) polling
`GET /api/lessons/active` — provided it still returns the lesson — leaves no
pending row of that lesson, and (b) a failed late submission to
`POST /api/attendance/mark` flips only the submitting student's pending row of
that lesson: afterwards every still-pending row of the lesson belongs to
another student, and rows of other students (or other lessons) are kept
verbatim. -/
theorem expiry_sweep_amended (s : Db) :
    (∀ l, (getActiveLesson s).1 = some l → 1200000 < s.now - l.start_time →
      ∀ a ∈ (getActiveLesson s).2.attendance, a.lesson_id = l.id →
        a.status ≠ Status.pending) ∧
    (∀ lid sid otp l, s.lessons.find? (fun x => x.id == lid) = some l →
      l.otp_enabled = true → 1200000 < s.now - l.start_time →
      (markAttendance s lid sid otp).1 = MarkResult.expired ∧
      (∀ a ∈ (markAttendance s lid sid otp).2.attendance,
        a.lesson_id = lid → a.status = Status.pending → a.student_id ≠ sid) ∧
      (∀ a ∈ s.attendance, a.student_id ≠ sid ∨ a.lesson_id ≠ lid →
        a ∈ (markAttendance s lid sid otp).2.attendance)) := by
  constructor
  · intro l hsome h20 a ha halid
    rcases hL : latestBy (fun x : LessonRow => x.id)
        (s.lessons.filter (fun x => hasUnit s x)) with _ | L
    · simp only [getActiveLesson, hL] at hsome
      cases hsome
    · simp only [getActiveLesson, hL] at hsome ha
      by_cases h24 : 86400000 < s.now - L.start_time
      · rw [if_pos h24] at hsome
        cases hsome
      · rw [if_neg h24] at hsome ha
        by_cases h20b : 1200000 < s.now - L.start_time
        · rw [if_pos h20b] at hsome ha
          dsimp only at hsome ha
          have hLl : L = l := by injection hsome
          subst hLl
          obtain ⟨b, hb, rfl⟩ := List.mem_map.mp ha
          by_cases e : b.lesson_id = L.id ∧ b.status = Status.pending
          · rw [if_pos e]
            intro hc
            cases hc
          · rw [if_neg e] at halid ⊢
            intro hpend
            exact e ⟨halid, hpend⟩
        · rw [if_neg h20b] at hsome
          dsimp only at hsome
          have hLl : L = l := by injection hsome
          rw [hLl] at h20b
          exact absurd h20 h20b
  · intro lid sid otp l hfind hen h20
    rw [mark_expired_state s lid sid otp l hfind hen h20]
    dsimp only
    refine ⟨rfl, ?_, ?_⟩
    · intro a ha halid hpend
      obtain ⟨b, hb, rfl⟩ := List.mem_map.mp ha
      by_cases e : b.lesson_id = lid ∧ b.student_id = sid ∧ b.status = Status.pending
      · rw [if_pos e] at hpend
        cases hpend
      · rw [if_neg e] at halid hpend ⊢
        intro hsid
        exact e ⟨halid, hsid, hpend⟩
    · intro a ha hor
      refine List.mem_map.mpr ⟨a, ha, ?_⟩
      rw [if_neg ?_]
      intro hc
      rcases hor with hor | hor
      · exact hor hc.2.1
      · exact hor hc.1

/-- Witness for C3 (amended) on the run `x6`: the poll sweeps student 2's row
to absent, and the late mark by student 1 is rejected as expired. -/
theorem expiry_sweep_amended_witness :
    ({ rowW2 with status := Status.absent } : AttendanceRow).status ≠ Status.pending ∧
    (markAttendance x6 1 1 "111111").1 = MarkResult.expired := by
  have h := expiry_sweep_amended x6
  constructor
  · exact h.1 lessonW (by decide) (by decide)
      { rowW2 with status := Status.absent } (by decide) (by decide)
  · exact (h.2 1 1 "111111" lessonW (by decide) (by decide) (by decide)).1

/-- C3 counterexample: on the reachable run `x6` (two pending rows, more than
20 minutes elapsed), the failed late submission of student 1 leaves student
2's row of the same lesson pending, so this trigger does not flip every
remaining pending row. -/
theorem expiry_sweep_counterexample :
    Reachable x6 ∧
    x6.lessons.find? (fun x => x.id == 1) = some lessonW ∧
    lessonW.otp_enabled = true ∧
    1200000 < x6.now - lessonW.start_time ∧
    (markAttendance x6 1 1 "111111").1 ≠ MarkResult.success ∧
    rowW2 ∈ (markAttendance x6 1 1 "111111").2.attendance ∧
    rowW2.lesson_id = lessonW.id ∧ rowW2.status = Status.pending :=
  ⟨reachable_x6, by decide, by decide, by decide, by decide, by decide,
    by decide, by decide⟩

/-- C4 (code bug): `DELETE /api/units/:id` always fails.  The transaction's
first statement, `SELECT id FROM lessons WHERE unit_id = ?`, is executed via
`.all()` with no bound parameter (server.ts line 210), so better-sqlite3
throws `RangeError: Too few parameter values were provided`; the transaction
aborts and the handler answers 500 having deleted nothing.  Shown on the
reachable state `w5`, which contains unit 1, its lesson and attendance rows:
the delete errors and the state — unit included — is unchanged. -/
theorem deleteUnit_always_fails :
    Reachable w5 ∧
    (w5.units.any (fun u => u.id == 1)) = true ∧
    deleteUnit w5 1 = Except.error "Too few parameter values were provided" ∧
    applyOp w5 (Op.deleteUnit 1) = w5 :=
  ⟨reachable_w5, by decide, rfl, rfl⟩

/-- C1 (amended): `POST /api/attendance/mark` succeeds — transitioning the
student's row from `pending` to `present` and setting `marked_at` — if and
only if the lesson exists, its `otp_enabled` flag is set, at most 20 minutes
have elapsed since its `start_time`, the submitted code is an exact
case-sensitive match for the code stored in that student's row for that
lesson, and that row's status is still `pending`; otherwise the request is
rejected with an error. -/
theorem markAttendance_success_iff (s : Db) (h : Inv s) (lid sid : Nat) (otp : String) :
    ((markAttendance s lid sid otp).1 = MarkResult.success ↔
      ∃ l ∈ s.lessons, l.id = lid ∧ l.otp_enabled = true ∧
        s.now - l.start_time ≤ 1200000 ∧
        ∃ a ∈ s.attendance, a.lesson_id = lid ∧ a.student_id = sid ∧ a.otp = otp ∧
          a.status = Status.pending) ∧
    ((markAttendance s lid sid otp).1 = MarkResult.success →
      ∀ a ∈ s.attendance, a.lesson_id = lid → a.student_id = sid →
        { a with status := Status.present, marked_at := some s.now } ∈
          (markAttendance s lid sid otp).2.attendance) := by
  obtain ⟨h1, h2, h3, h4, h5, h6, h7, h8, h9, h10, h11, h12⟩ := h
  have hpairs : s.attendance.Pairwise
      (fun x y => (x.lesson_id, x.student_id) ≠ (y.lesson_id, y.student_id)) := by
    refine h11.imp ?_
    intro x y hxy hc
    injection hc with hc1 hc2
    rcases hxy with hh | hh
    · exact hh hc1
    · exact hh hc2
  rcases hfind : s.lessons.find? (fun x => x.id == lid) with _ | l0
  · simp only [markAttendance, hfind]
    constructor
    · constructor
      · intro hc; cases hc
      · rintro ⟨l, hlmem, hlid, -⟩
        have := List.find?_eq_none.mp hfind l hlmem
        simp [hlid] at this
    · intro hc; cases hc
  · have hl0mem : l0 ∈ s.lessons := List.mem_of_find?_eq_some hfind
    have hl0id : l0.id = lid := by simpa using List.find?_some hfind
    simp only [markAttendance, hfind]
    by_cases hen : l0.otp_enabled = false
    · rw [if_pos hen]
      constructor
      · constructor
        · intro hc; cases hc
        · rintro ⟨l, hlmem, hlid, hlen, -⟩
          have hll : l = l0 := key_eq_of_pairwise (fun x => x.id) h3 hlmem hl0mem
            (hlid.trans hl0id.symm)
          rw [hll, hen] at hlen
          cases hlen
      · intro hc; cases hc
    · rw [if_neg hen]
      by_cases hexp : 1200000 < s.now - l0.start_time
      · rw [if_pos hexp]
        dsimp only
        constructor
        · constructor
          · intro hc; cases hc
          · rintro ⟨l, hlmem, hlid, -, hle, -⟩
            have hll : l = l0 := key_eq_of_pairwise (fun x => x.id) h3 hlmem hl0mem
              (hlid.trans hl0id.symm)
            rw [hll] at hle
            omega
        · intro hc; cases hc
      · rw [if_neg hexp]
        rcases hfr : s.attendance.find? (fun a =>
            a.lesson_id == lid && a.student_id == sid && a.otp == otp) with _ | r0
        · simp only [hfr]
          constructor
          · constructor
            · intro hc; cases hc
            · rintro ⟨l, hlmem, hlid, hlen, hle, a, hamem, halid, hasid, haotp, hap⟩
              have := List.find?_eq_none.mp hfr a hamem
              simp [halid, hasid, haotp] at this
          · intro hc; cases hc
        · simp only [hfr]
          have hr0mem : r0 ∈ s.attendance := List.mem_of_find?_eq_some hfr
          have hr0p := List.find?_some hfr
          simp only [Bool.and_eq_true, beq_iff_eq] at hr0p
          obtain ⟨⟨hr0lid, hr0sid⟩, hr0otp⟩ := hr0p
          by_cases hpr : r0.status = Status.present
          · rw [if_pos hpr]
            constructor
            · constructor
              · intro hc; cases hc
              · rintro ⟨l, hlmem, hlid, hlen, hle, a, hamem, halid, hasid, haotp, hap⟩
                have ha0 : a = r0 := key_eq_of_pairwise
                  (fun x => (x.lesson_id, x.student_id)) hpairs hamem hr0mem
                  (by simp only [halid, hasid, hr0lid, hr0sid])
                rw [ha0, hpr] at hap
                cases hap
            · intro hc; cases hc
          · rw [if_neg hpr]
            dsimp only
            have hent : l0.otp_enabled = true := by
              cases hb : l0.otp_enabled with
              | false => exact absurd hb hen
              | true => rfl
            have hr0pend : r0.status = Status.pending := by
              cases hs : r0.status with
              | pending => rfl
              | present => exact absurd hs hpr
              | absent =>
                have := h12 r0 hr0mem hs l0 hl0mem (hl0id.trans hr0lid.symm)
                omega
            constructor
            · constructor
              · intro _
                exact ⟨l0, hl0mem, hl0id, hent, by omega, r0, hr0mem, hr0lid, hr0sid,
                  hr0otp, hr0pend⟩
              · intro _
                rfl
            · intro _ a hamem halid hasid
              have ha0 : a = r0 := key_eq_of_pairwise
                (fun x => (x.lesson_id, x.student_id)) hpairs hamem hr0mem
                (by simp only [halid, hasid, hr0lid, hr0sid])
              subst ha0
              exact List.mem_map.mpr ⟨a, hamem, by rw [if_pos rfl]⟩

/-- Witness for C1 (amended): in `w5`, student 1's correct code succeeds and
the row becomes present with `marked_at` set. -/
theorem markAttendance_success_iff_witness :
    (markAttendance w5 1 1 "111111").1 = MarkResult.success ∧
    rowW1m ∈ (markAttendance w5 1 1 "111111").2.attendance := by
  have h := markAttendance_success_iff w5 (reachable_inv reachable_w5) 1 1 "111111"
  have hs : (markAttendance w5 1 1 "111111").1 = MarkResult.success :=
    h.1.mpr ⟨lessonW, by decide, by decide, by decide, by decide, rowW1, by decide,
      by decide, by decide, by decide, by decide⟩
  exact ⟨hs, h.2 hs rowW1 (by decide) (by decide) (by decide)⟩

/-- C1 counterexample: in the reachable state `w6`, all four conditions of the
claim hold for lesson 1 / student 1 / code 111111 — the lesson exists with
`otp_enabled` set, no time has elapsed, and the code matches the stored row —
yet the request is rejected, because that row is already `present`; the
claimed equivalence fails as stated. -/
theorem markAttendance_claim_counterexample :
    Reachable w6 ∧
    w6.lessons.find? (fun x => x.id == 1) = some lessonW ∧
    lessonW.otp_enabled = true ∧
    w6.now - lessonW.start_time ≤ 1200000 ∧
    rowW1m ∈ w6.attendance ∧ rowW1m.lesson_id = 1 ∧ rowW1m.student_id = 1 ∧
    rowW1m.otp = "111111" ∧
    (markAttendance w6 1 1 "111111").1 = MarkResult.alreadyPresent :=
  ⟨reachable_w6, by decide, by decide, by decide, by decide, by decide, by decide,
    by decide, by decide⟩

/-- Mapping then projecting a key untouched by the map equals projecting. -/
theorem map_map_key {α β : Type} (u : α → α) (k : α → β) (l : List α)
    (h : ∀ x, k (u x) = k x) : (l.map u).map k = l.map k := by
  induction l with
  | nil => rfl
  | cons x xs ih => simp [h, ih]

/-- C6: with an active lesson, `POST /api/lessons/restart` succeeds, keeps the
lessons table's rows (updating the active one in place: `start_time = now`,
`otp_enabled` reset), deletes exactly the attendance rows of that lesson and
inserts one fresh pending row with a newly generated code per registered
student; with no active lesson it fails with not-found and changes nothing. -/
theorem restartLesson_spec (s : Db) (g : Nat → String) :
    (activeLessonQuery s = none → restartLesson s g = (false, s)) ∧
    (∀ al, activeLessonQuery s = some al →
      (restartLesson s g).1 = true ∧
      (restartLesson s g).2.lessons.map (fun l => l.id) =
        s.lessons.map (fun l => l.id) ∧
      (∀ l ∈ (restartLesson s g).2.lessons, l.id ≠ al.id → l ∈ s.lessons) ∧
      (∃ l ∈ (restartLesson s g).2.lessons, l.id = al.id ∧ l.start_time = s.now ∧
        l.otp_enabled = false) ∧
      (∀ a ∈ (restartLesson s g).2.attendance, a.lesson_id ≠ al.id →
        a ∈ s.attendance) ∧
      (∀ a ∈ s.attendance, a.lesson_id ≠ al.id →
        a ∈ (restartLesson s g).2.attendance) ∧
      ((restartLesson s g).2.attendance.filter
        (fun a => a.lesson_id == al.id)).length = s.students.length ∧
      (∀ a ∈ (restartLesson s g).2.attendance, a.lesson_id = al.id →
        a.status = Status.pending ∧ a.otp = g a.student_id ∧
        s.nextAttendanceId ≤ a.id) ∧
      (∀ st ∈ s.students, ∃ a ∈ (restartLesson s g).2.attendance,
        a.lesson_id = al.id ∧ a.student_id = st.id ∧ a.otp = g st.id ∧
        a.status = Status.pending)) := by
  constructor
  · intro hnone
    simp only [restartLesson, hnone]
  · intro al heq
    have halmem := (activeLessonQuery_mem heq).1
    have hstate : restartLesson s g = (true, { s with lessons := s.lessons.map (fun l => if l.id = al.id then { l with start_time := s.now, end_time := s.now + al.duration * 60000, otp_enabled := false } else l), attendance := (s.attendance.filter (fun a => !(a.lesson_id == al.id))) ++ mkRows al.id g s.nextAttendanceId s.students, nextAttendanceId := s.nextAttendanceId + s.students.length }) := by
      simp only [restartLesson, heq]
    rw [hstate]
    dsimp only
    refine ⟨rfl, ?_, ?_, ?_, ?_, ?_, ?_, ?_, ?_⟩
    · refine map_map_key _ _ _ ?_
      intro x
      by_cases e : x.id = al.id
      · rw [if_pos e]
      · rw [if_neg e]
    · intro l hl hne
      obtain ⟨b, hb, rfl⟩ := List.mem_map.mp hl
      by_cases e : b.id = al.id
      · rw [if_pos e] at hne
        exact absurd e hne
      · rw [if_neg e]
        exact hb
    · exact ⟨{ al with start_time := s.now, end_time := s.now + al.duration * 60000, otp_enabled := false }, List.mem_map.mpr ⟨al, halmem, by rw [if_pos rfl]⟩, rfl, rfl, rfl⟩
    · intro a ha hne
      rcases List.mem_append.mp ha with ha | ha
      · exact List.mem_of_mem_filter ha
      · exact absurd (mem_mkRows ha).1 hne
    · intro a ha hne
      refine List.mem_append_left _ (List.mem_filter.mpr ⟨ha, ?_⟩)
      simpa using hne
    · rw [List.filter_append]
      have hk : List.filter (fun a => a.lesson_id == al.id)
          (List.filter (fun a => !(a.lesson_id == al.id)) s.attendance) = [] := by
        rw [List.filter_eq_nil_iff]
        intro a ha
        have := (List.mem_filter.mp ha).2
        simp only [Bool.not_eq_true', beq_eq_false_iff_ne] at this
        simpa using this
      have hf : List.filter (fun a => a.lesson_id == al.id)
          (mkRows al.id g s.nextAttendanceId s.students) =
          mkRows al.id g s.nextAttendanceId s.students := by
        rw [List.filter_eq_self]
        intro a ha
        simp [(mem_mkRows ha).1]
      rw [hk, hf, List.nil_append, mkRows_length]
    · intro a ha heqa
      rcases List.mem_append.mp ha with ha | ha
      · have := (List.mem_filter.mp ha).2
        simp only [Bool.not_eq_true', beq_eq_false_iff_ne] at this
        exact absurd heqa this
      · obtain ⟨e1, e2, e3, e4, e5, e6, -⟩ := mem_mkRows ha
        exact ⟨e2, e3, e5⟩
    · intro st hst
      obtain ⟨a, ha, b1, b2, b3, b4⟩ := mkRows_exists s.nextAttendanceId hst
      exact ⟨a, List.mem_append_right _ ha, b4, b1, b2, b3⟩

/-- Witness for C6: restarting the fresh database fails with not-found and
changes nothing; restarting the run `w5` (active lesson 1) succeeds. -/
theorem restartLesson_spec_witness :
    restartLesson Db.init (fun _ => "333333") = (false, Db.init) ∧
    (restartLesson w5 (fun _ => "333333")).1 = true := by
  refine ⟨(restartLesson_spec Db.init (fun _ => "333333")).1 rfl, ?_⟩
  exact ((restartLesson_spec w5 (fun _ => "333333")).2 lessonW (by decide)).1

/-- C7: `POST /api/lessons/start` with a unit id appends exactly one lesson
row carrying the generated lecturer OTP and `start_time = now`, and appends
exactly one pending attendance row per currently registered student, each
with its own generated code. -/
theorem startLesson_spec (s : Db) (r : StartReq) (hr : r.unit_id ≠ 0) :
    (startLesson s r).1 = some s.nextLessonId ∧
    (∃ L, (startLesson s r).2.lessons = s.lessons ++ [L] ∧ L.id = s.nextLessonId ∧
      L.unit_id = r.unit_id ∧ L.lecturer_otp = r.lecturer_otp ∧
      L.start_time = s.now ∧ L.otp_enabled = false) ∧
    (startLesson s r).2.attendance.length = s.attendance.length + s.students.length ∧
    (∀ a ∈ s.attendance, a ∈ (startLesson s r).2.attendance) ∧
    (∀ a ∈ (startLesson s r).2.attendance, a ∈ s.attendance ∨
      (a.lesson_id = s.nextLessonId ∧ a.status = Status.pending ∧
       a.otp = r.student_otp a.student_id ∧ s.nextAttendanceId ≤ a.id ∧
       ∃ st ∈ s.students, st.id = a.student_id)) ∧
    (∀ st ∈ s.students, ∃ a ∈ (startLesson s r).2.attendance,
      a.lesson_id = s.nextLessonId ∧ a.student_id = st.id ∧
      a.otp = r.student_otp st.id ∧ a.status = Status.pending) := by
  have hstate : startLesson s r = (some s.nextLessonId, { s with lessons := s.lessons ++ [{ id := s.nextLessonId, unit_id := r.unit_id, date := s.now, venue := r.venue, duration := if r.duration = 0 then 60 else r.duration, start_time := s.now, end_time := s.now + (if r.duration = 0 then 60 else r.duration) * 60000, scheduled_start := r.scheduled_start, scheduled_end := r.scheduled_end, lecturer_otp := r.lecturer_otp, lecturer_present := false, otp_enabled := false }], nextLessonId := s.nextLessonId + 1, attendance := s.attendance ++ mkRows s.nextLessonId r.student_otp s.nextAttendanceId s.students, nextAttendanceId := s.nextAttendanceId + s.students.length }) := by
    simp only [startLesson, if_neg hr]
  rw [hstate]
  dsimp only
  refine ⟨rfl, ⟨_, rfl, rfl, rfl, rfl, rfl, rfl⟩, ?_, ?_, ?_, ?_⟩
  · rw [List.length_append, mkRows_length]
  · intro a ha
    exact List.mem_append_left _ ha
  · intro a ha
    rcases List.mem_append.mp ha with ha | ha
    · exact Or.inl ha
    · obtain ⟨e1, e2, e3, e4, e5, e6, hst⟩ := mem_mkRows ha
      exact Or.inr ⟨e1, e2, e3, e5, hst⟩
  · intro st hst
    obtain ⟨a, ha, b1, b2, b3, b4⟩ := mkRows_exists s.nextAttendanceId hst
    exact ⟨a, List.mem_append_right _ ha, b4, b1, b2, b3⟩

/-- Witness for C7 on the run `w3`: starting the session answers lesson id 1
and inserts one row per registered student. -/
theorem startLesson_spec_witness :
    (startLesson w3 reqW).1 = some 1 ∧
    (startLesson w3 reqW).2.attendance.length =
      w3.attendance.length + w3.students.length := by
  have h := startLesson_spec w3 reqW (by decide)
  exact ⟨h.1, h.2.2.1⟩

/-- C8 (amended): `GET /api/lessons/active` answers the stored lesson with the
highest id among those whose `unit_id` matches an existing unit exactly when
it started at most 24 hours ago, and `null` otherwise; the handler never
modifies the lessons table (there is no closed/cancelled state).  The
original claim — highest id overall — fails when that lesson's unit is
missing, because of the handler's `JOIN units`. -/
theorem getActiveLesson_amended (s : Db) (h : Inv s) (l : LessonRow) :
    ((getActiveLesson s).1 = some l ↔
      l ∈ s.lessons ∧ hasUnit s l = true ∧
      (∀ l2 ∈ s.lessons, hasUnit s l2 = true → l2.id ≤ l.id) ∧
      s.now - l.start_time ≤ 86400000) ∧
    (getActiveLesson s).2.lessons = s.lessons := by
  have hnd := h.lessonNodup.filter (fun x => hasUnit s x)
  rcases hL : latestBy (fun x : LessonRow => x.id)
      (s.lessons.filter (fun x => hasUnit s x)) with _ | L
  · simp only [getActiveLesson, hL]
    refine ⟨?_, by trivial⟩
    constructor
    · intro hc; cases hc
    · rintro ⟨hlmem, hlu, -, -⟩
      have hmem : l ∈ s.lessons.filter (fun x => hasUnit s x) :=
        List.mem_filter.mpr ⟨hlmem, hlu⟩
      rw [(latestBy_eq_none _ _).mp hL] at hmem
      cases hmem
  · obtain ⟨hLf, hLmax⟩ :=
      (latestBy_eq_some_iff (fun x : LessonRow => x.id) hnd L).mp hL
    have hLmem : L ∈ s.lessons := (List.mem_filter.mp hLf).1
    have hLu : hasUnit s L = true := (List.mem_filter.mp hLf).2
    simp only [getActiveLesson, hL]
    by_cases h24 : 86400000 < s.now - L.start_time
    · rw [if_pos h24]
      refine ⟨?_, by trivial⟩
      constructor
      · intro hc; cases hc
      · rintro ⟨hlmem, hlu, hlmax, hle⟩
        have hLle : L.id ≤ l.id := hlmax L hLmem hLu
        have hlle : l.id ≤ L.id := hLmax l (List.mem_filter.mpr ⟨hlmem, hlu⟩)
        have hll : l = L := key_eq_of_pairwise (fun x => x.id) h.lessonNodup
          hlmem hLmem (le_antisymm hlle hLle)
        rw [hll] at hle
        omega
    · rw [if_neg h24]
      by_cases h20 : 1200000 < s.now - L.start_time
      · rw [if_pos h20]
        dsimp only
        refine ⟨?_, by trivial⟩
        constructor
        · intro hc
          have hLl : L = l := by injection hc
          subst hLl
          exact ⟨hLmem, hLu,
            fun l2 hl2 hu2 => hLmax l2 (List.mem_filter.mpr ⟨hl2, hu2⟩), by omega⟩
        · rintro ⟨hlmem, hlu, hlmax, -⟩
          have hLle : L.id ≤ l.id := hlmax L hLmem hLu
          have hlle : l.id ≤ L.id := hLmax l (List.mem_filter.mpr ⟨hlmem, hlu⟩)
          have hll : l = L := key_eq_of_pairwise (fun x => x.id) h.lessonNodup
            hlmem hLmem (le_antisymm hlle hLle)
          rw [hll]
      · rw [if_neg h20]
        refine ⟨?_, by trivial⟩
        constructor
        · intro hc
          have hLl : L = l := by injection hc
          subst hLl
          exact ⟨hLmem, hLu,
            fun l2 hl2 hu2 => hLmax l2 (List.mem_filter.mpr ⟨hl2, hu2⟩), by omega⟩
        · rintro ⟨hlmem, hlu, hlmax, -⟩
          have hLle : L.id ≤ l.id := hlmax L hLmem hLu
          have hlle : l.id ≤ L.id := hLmax l (List.mem_filter.mpr ⟨hlmem, hlu⟩)
          have hll : l = L := key_eq_of_pairwise (fun x => x.id) h.lessonNodup
            hlmem hLmem (le_antisymm hlle hLle)
          rw [hll]

/-- Witness for C8 (amended) on the run `w5`: the poll answers lesson 1 and
leaves the lessons table unchanged. -/
theorem getActiveLesson_amended_witness :
    (getActiveLesson w5).1 = some lessonW ∧
    (getActiveLesson w5).2.lessons = w5.lessons := by
  have h := getActiveLesson_amended w5 (reachable_inv reachable_w5) lessonW
  exact ⟨h.1.mpr ⟨by decide, by decide, by decide, by decide⟩, h.2⟩

/-- C8 counterexample: in the reachable state `z2` the most recently created
lesson started within the last 24 hours, yet `GET /api/lessons/active`
answers `null`: its `unit_id` (2) matches no unit, so the `JOIN units` drops
it and the claimed equivalence fails. -/
theorem getActiveLesson_counterexample :
    Reachable z2 ∧
    latestBy (fun x : LessonRow => x.id) z2.lessons = some lzW ∧
    z2.now - lzW.start_time ≤ 86400000 ∧
    (getActiveLesson z2).1 = none :=
  ⟨reachable_z2, by decide, by decide, by decide⟩

/-- C10 (amended): on every reachable state in which each lesson's `unit_id`
matches an existing unit and no lesson started exactly 24 hours ago, the
24-hour query shared by `POST /api/lessons/restart` and `POST /api/students`
selects exactly the lesson `GET /api/lessons/active` answers.  Without the
unit condition the two differ (see the counterexample); at the exact 24-hour
boundary the SQL filter is strict while the handler's check is not. -/
theorem active_queries_agree (s : Db) (h : Reachable s)
    (hu : ∀ l ∈ s.lessons, hasUnit s l = true)
    (hb : ∀ l ∈ s.lessons, s.now - l.start_time ≠ 86400000) :
    activeLessonQuery s = (getActiveLesson s).1 := by
  have hInv := reachable_inv h
  have hfu : s.lessons.filter (fun x => hasUnit s x) = s.lessons :=
    List.filter_eq_self.mpr hu
  rcases hL : latestBy (fun x : LessonRow => x.id) s.lessons with _ | L
  · have hnil : s.lessons = [] := (latestBy_eq_none _ _).mp hL
    simp only [getActiveLesson, hfu, hL]
    rw [activeLessonQuery, hnil]
    rfl
  · obtain ⟨hLmem, hLmax⟩ :=
      (latestBy_eq_some_iff (fun x : LessonRow => x.id) hInv.lessonNodup L).mp hL
    simp only [getActiveLesson, hfu, hL]
    by_cases h24 : 86400000 < s.now - L.start_time
    · rw [if_pos h24]
      rw [activeLessonQuery]
      have hempty : s.lessons.filter
          (fun l => decide (s.now < l.start_time + 86400000)) = [] := by
        rw [List.filter_eq_nil_iff]
        intro l hl
        simp only [decide_eq_true_eq]
        intro hrec
        have hlle : l.id ≤ L.id := hLmax l hl
        by_cases he : l = L
        · subst he
          omega
        · have hne : l.id ≠ L.id := fun hc =>
            he (key_eq_of_pairwise (fun x => x.id) hInv.lessonNodup hl hLmem hc)
          have hlt : l.id < L.id := lt_of_le_of_ne hlle hne
          have := hInv.startMono l hl L hLmem hlt
          omega
      rw [hempty]
      rfl
    · rw [if_neg h24]
      have h24b : s.now - L.start_time ≠ 86400000 := hb L hLmem
      have hLrec : s.now < L.start_time + 86400000 := by omega
      have hLfmem : L ∈ s.lessons.filter
          (fun l => decide (s.now < l.start_time + 86400000)) :=
        List.mem_filter.mpr ⟨hLmem, by simpa using hLrec⟩
      have hfnd := hInv.lessonNodup.filter
        (fun l => decide (s.now < l.start_time + 86400000))
      have hact : activeLessonQuery s = some L := by
        rw [activeLessonQuery]
        exact (latestBy_eq_some_iff (fun x : LessonRow => x.id) hfnd L).mpr
          ⟨hLfmem, fun b hb2 => hLmax b (List.mem_of_mem_filter hb2)⟩
      rw [hact]
      by_cases h20 : 1200000 < s.now - L.start_time
      · rw [if_pos h20]
      · rw [if_neg h20]

/-- Witness for C10 (amended) on the run `w5`: both notions of active lesson
agree. -/
theorem active_queries_agree_witness :
    activeLessonQuery w5 = (getActiveLesson w5).1 :=
  active_queries_agree w5 reachable_w5 (by decide) (by decide)

/-- C10 counterexample: in the reachable state `q1` — one lesson whose unit
was never created — the restart/registration query selects lesson 1 while
`GET /api/lessons/active` answers `null`; the two notions of active lesson do
not coincide on every database state. -/
theorem active_queries_counterexample :
    Reachable q1 ∧ activeLessonQuery q1 = some lqW ∧
    (getActiveLesson q1).1 = none :=
  ⟨reachable_q1, by decide, by decide⟩

end CAP
